import Mathlib

/-!
# RootedInjector: the record importer of `src/main.go`

A shallow embedding of the importer.  The program is one `main` function; the
embedding follows it section by section (the line numbers of `src/main.go` are
given at each definition):

* the decoded input records (`FullFilingRecord` and its parts);
* the statements built with the squirrel statement builder (`psql`), each with
  the runner (`RunWith`) it is finally executed on;
* the database the statements are sent to: tables of rows, id sequences, one
  open transaction with its uncommitted writes, and a fault schedule that says
  which database call fails;
* the process: the calls issued so far, the in-memory `errorLog`, the deferred
  rollback closures, `log.Fatal` (which exits at once) and `errors.txt`.

Connecting to the database, opening and decoding the input file (lines 66-82)
and the progress bar are outside the embedding: it starts from the decoded
records.
-/

namespace RootedInjector

/-! ## Input records (lines 14-61) -/

/-- A `float64`, kept as its bit pattern: the importer only passes it on. -/
structure Float64 where
  bits : Nat
  deriving DecidableEq, Repr

/-- Go `Address` (lines 56-61). -/
structure Address where
  AddressLine1 : String
  City : String
  State : String
  ZIPCode : String
  deriving DecidableEq, Repr

/-- Go `People` (lines 26-34); a pointer field is an `Option`. -/
structure People where
  PersonName : String
  PersonTitle : String
  PhoneNumber : Option String
  AverageHours : Option Float64
  Bookkeeper : Bool
  Compensation : Option Int
  Address : Option Address
  deriving DecidableEq, Repr

/-- Go `IRS990EZ` (lines 36-43). -/
structure IRS990EZ where
  GrossReceiptsAmt : Int
  TotalRevenueAmt : Int
  TotalExpensesAmt : Int
  ExcessOrDeficitForYearAmt : Int
  PrimaryExemptPurpose : String
  Website : String
  deriving DecidableEq, Repr

/-- Go `IRSForm990` (lines 45-54). -/
structure IRSForm990 where
  PrincipalOfficerName : String
  PrincipalOfficerAddress : Address
  GrossReceiptsAmount : Int
  WebsiteAddress : String
  MissionDescription : String
  FormationYear : Int
  TotalAssetsEndOfYearAmount : Int
  TotalLiabilitiesEndOfYearAmount : Int
  deriving DecidableEq, Repr

/-- Go `FullFilingRecord` (lines 14-24). -/
structure FullFilingRecord where
  EIN : String
  Name : String
  DLN : String
  ObjectID : String
  XMLBatchID : String
  Location : Address
  People : List People
  Form990 : Option IRSForm990
  Form990EZ : Option IRS990EZ
  deriving DecidableEq, Repr

/-! ## Values bound to a statement -/

/-- A value handed to the database driver (Go `interface{}`). -/
inductive Value where
  | null
  | int (i : Int)
  | str (s : String)
  | bool (b : Bool)
  | float (f : Float64)
  deriving DecidableEq, Repr

/-- Go `nullInt` (lines 247-253). -/
def nullInt (i : Option Int) : Value :=
  match i with
  | none => Value.null
  | some v => Value.int v

/-- Go `nullStr` (lines 255-261); no statement of `main` uses it. -/
def nullStr (s : String) : Value :=
  if s = "" then Value.null else Value.str s

/-- A `*string` argument as the driver binds it: nil is NULL. -/
def ptrString (p : Option String) : Value :=
  match p with
  | none => Value.null
  | some s => Value.str s

/-- A `*float64` argument as the driver binds it: nil is NULL. -/
def ptrFloat (p : Option Float64) : Value :=
  match p with
  | none => Value.null
  | some f => Value.float f

/-! ## The statement builder (squirrel) -/

/-- What a statement is run on: the per-record transaction `tx` (identified by
its number) or the plain connection `db`. -/
inductive Runner where
  | tx (id : Nat)
  | db
  deriving DecidableEq, Repr

/-- The three kinds of statement the importer builds. -/
inductive Verb where
  | select
  | insert
  | delete
  deriving DecidableEq, Repr

/-- A built statement.  `cond` is the `sq.Eq` map of the `Where` clause,
`suffix` the text of `Suffix` (empty when there is none), `runner` the last
`RunWith` applied (none when there was none). -/
structure Stmt where
  verb : Verb
  table : String
  columns : List String
  values : List Value
  cond : List (String × Value)
  suffix : String
  runner : Option Runner
  deriving DecidableEq, Repr

/-- The builder `psql`: it only carries the runner it was given (the
placeholder format plays no part in what a statement does). -/
structure Builder where
  runner : Option Runner
  deriving DecidableEq, Repr

/-- Go `sq.StatementBuilder`: no runner yet. -/
def StatementBuilder : Builder := ⟨none⟩

/-- Builder `RunWith`. -/
def Builder.RunWith (_b : Builder) (r : Runner) : Builder := ⟨some r⟩

/-- Builder `Select(columns...)`. -/
def Builder.Select (b : Builder) (columns : List String) : Stmt :=
  { verb := Verb.select, table := "", columns := columns, values := [], cond := [],
    suffix := "", runner := b.runner }

/-- Builder `Insert(table)`. -/
def Builder.Insert (b : Builder) (table : String) : Stmt :=
  { verb := Verb.insert, table := table, columns := [], values := [], cond := [],
    suffix := "", runner := b.runner }

/-- Builder `Delete(table)`. -/
def Builder.Delete (b : Builder) (table : String) : Stmt :=
  { verb := Verb.delete, table := table, columns := [], values := [], cond := [],
    suffix := "", runner := b.runner }

/-- Statement `From(table)`. -/
def Stmt.From (s : Stmt) (table : String) : Stmt := { s with table := table }

/-- Statement `Where(sq.Eq{...})`. -/
def Stmt.Where (s : Stmt) (eq : List (String × Value)) : Stmt :=
  { s with cond := s.cond ++ eq }

/-- Statement `Columns(...)`. -/
def Stmt.Columns (s : Stmt) (cols : List String) : Stmt :=
  { s with columns := s.columns ++ cols }

/-- Statement `Values(...)`. -/
def Stmt.Values (s : Stmt) (vals : List Value) : Stmt :=
  { s with values := s.values ++ vals }

/-- Statement `Suffix(text)`. -/
def Stmt.Suffix (s : Stmt) (text : String) : Stmt := { s with suffix := text }

/-- Statement `RunWith(runner)`: replaces the runner inherited from the builder. -/
def Stmt.RunWith (s : Stmt) (r : Runner) : Stmt := { s with runner := some r }

/-! ## The statements of `main` -/

/-- The existence check (lines 107-111). -/
def existsQuery (psql : Builder) (record : FullFilingRecord) : Stmt :=
  (((psql.Select ["1"]).From "website.organisations").Where
    [("ein", Value.str record.EIN), ("dln", Value.str record.DLN)]).RunWith Runner.db

/-- The delete of the existing organisation row (lines 126-128). -/
def deleteStmt (psql : Builder) (record : FullFilingRecord) : Stmt :=
  ((psql.Delete "website.organisations").Where
    [("ein", Value.str record.EIN), ("dln", Value.str record.DLN)]).RunWith Runner.db

/-- The organisation insert when Form990EZ is present (lines 142-148). -/
def orgQueryEZ (psql : Builder) (record : FullFilingRecord) (ez : IRS990EZ) : Stmt :=
  ((((psql.Insert "website.organisations").Columns
      ["name", "ein", "dln", "xml_batch_id", "website", "description"]).Values
      [Value.str record.Name, Value.str record.EIN, Value.str record.DLN,
        Value.str record.XMLBatchID, Value.str ez.Website,
        Value.str ez.PrimaryExemptPurpose]).Suffix "RETURNING id").RunWith Runner.db

/-- The organisation insert when Form990EZ is nil (lines 154-159). -/
def orgQueryPlain (psql : Builder) (record : FullFilingRecord) : Stmt :=
  ((((psql.Insert "website.organisations").Columns
      ["name", "ein", "dln", "xml_batch_id"]).Values
      [Value.str record.Name, Value.str record.EIN, Value.str record.DLN,
        Value.str record.XMLBatchID]).Suffix "RETURNING id").RunWith Runner.db

/-- The organisation insert of a record (lines 141-164, either branch). -/
def orgQuery (psql : Builder) (record : FullFilingRecord) : Stmt :=
  match record.Form990EZ with
  | some ez => orgQueryEZ psql record ez
  | none => orgQueryPlain psql record

/-- The location insert (lines 167-171). -/
def locationStmt (psql : Builder) (orgID : Int) (record : FullFilingRecord) : Stmt :=
  (((psql.Insert "website.organisation_locations").Columns
      ["organisation_id", "address_line_1", "city", "state", "zip_code"]).Values
      [Value.int orgID, Value.str record.Location.AddressLine1,
        Value.str record.Location.City, Value.str record.Location.State,
        Value.str record.Location.ZIPCode]).RunWith Runner.db

/-- The metadata insert (lines 179-183). -/
def metadataStmt (psql : Builder) (orgID : Int) (ez : IRS990EZ) : Stmt :=
  (((psql.Insert "website.organisation_metadata").Columns
      ["organisation_id", "gross_reciepts_amt", "total_revenue_amt", "total_expenses_amt",
        "excess_or_deficit_for_year_amt"]).Values
      [Value.int orgID, Value.int ez.GrossReceiptsAmt, Value.int ez.TotalRevenueAmt,
        Value.int ez.TotalExpensesAmt,
        Value.int ez.ExcessOrDeficitForYearAmt]).RunWith Runner.db

/-- The person insert (lines 192-199). -/
def personQuery (psql : Builder) (orgID : Int) (person : People) : Stmt :=
  ((((psql.Insert "website.people").Columns
      ["organisation_id", "bookkeeper", "name", "title", "phone_number", "average_hours",
        "compensation"]).Values
      [Value.int orgID, Value.bool person.Bookkeeper, Value.str person.PersonName,
        Value.str person.PersonTitle, ptrString person.PhoneNumber,
        ptrFloat person.AverageHours,
        nullInt person.Compensation]).Suffix "RETURNING id").RunWith Runner.db

/-- The person address insert (lines 206-210). -/
def personLocationStmt (psql : Builder) (personID : Int) (address : Address) : Stmt :=
  (((psql.Insert "website.people_locations").Columns
      ["person_id", "address_line_1", "city", "state", "zip_code"]).Values
      [Value.int personID, Value.str address.AddressLine1, Value.str address.City,
        Value.str address.State, Value.str address.ZIPCode]).RunWith Runner.db

/-! ## The database

The database is the external collaborator.  Its model is the least one the
statements of `main` need: schema-less rows, `col = value` filters, an id
sequence per table for `INSERT ... RETURNING id`, and transactions whose writes
become visible at commit.  A statement run on the plain connection is applied
at once (autocommit). -/

/-- A stored row: its columns with their values. -/
abbrev Row := List (String × Value)

/-- The `sq.Eq` filter: every named column holds the given value. -/
def matchesEq (cond : List (String × Value)) (r : Row) : Bool :=
  cond.all fun c => decide (r.lookup c.1 = some c.2)

/-- A change of the stored rows. -/
inductive Write where
  | insert (table : String) (row : Row)
  | delete (table : String) (cond : List (String × Value))
  deriving DecidableEq, Repr

/-- The tables after a write.  A delete removes the matching rows of its own
table only (no cascade). -/
def applyWrite (rows : String → List Row) (wr : Write) : String → List Row :=
  match wr with
  | Write.insert t r => fun x => if x = t then rows x ++ [r] else rows x
  | Write.delete t c =>
    fun x => if x = t then (rows x).filter (fun r => !matchesEq c r) else rows x

/-- Go errors the importer distinguishes: `sql.ErrNoRows` and any other. -/
inductive GoError where
  | ErrNoRows
  | other (msg : String)
  deriving DecidableEq, Repr

/-- Go `err.Error()`. -/
def GoError.Error (e : GoError) : String :=
  match e with
  | GoError.ErrNoRows => "sql: no rows in result set"
  | GoError.other msg => msg

/-- Go `sql.ErrTxDone`. -/
def ErrTxDone : GoError :=
  GoError.other "sql: transaction has already been committed or rolled back"

/-- The error of running a statement that was given no runner. -/
def RunnerNotSet : GoError :=
  GoError.other "cannot run; no Runner set (RunWith)"

/-- A call made to the database. -/
inductive Call where
  | Begin
  | Commit (tx : Nat)
  | Rollback (tx : Nat)
  | QueryRow (s : Stmt)
  | Exec (s : Stmt)
  deriving DecidableEq, Repr

/-- What a call came back with: success, a scanned value, or an error. -/
inductive Reply where
  | ok
  | value (v : Int)
  | error (e : GoError)
  deriving DecidableEq, Repr

/-- One issued call with its reply. -/
structure Event where
  call : Call
  reply : Reply
  deriving DecidableEq, Repr

/-- The fault schedule: the error text of the k-th database call of the run,
none when the database accepts it. -/
abbrev Faults := Nat → Option String

/-- The state of the database and of the process. -/
structure World where
  /-- The committed rows of each table: what is visible in storage. -/
  rows : String → List Row
  /-- The next id of each table with generated ids. -/
  seq : String → Int
  /-- The open transaction: its number and its uncommitted writes. -/
  tx : Option (Nat × List Write)
  /-- How many transactions were begun. -/
  txCount : Nat
  /-- Every database call issued so far, oldest first. -/
  issued : List Event
  /-- The deferred rollback closures, latest first: the transaction each one
  holds and the current value of the `err` variable it captured. -/
  deferred : List (Nat × Option GoError)
  /-- The variable `errorLog` of `main`. -/
  errorLog : List String
  /-- The lines written with `log`. -/
  log : List String
  /-- The lines of `errors.txt`, none while the file was not created. -/
  errorsFile : Option (List String)

/-- The world when `main` starts on a given storage (line 64: `errorLog` is
empty). -/
def World.start (rows : String → List Row) (seq : String → Int) : World :=
  { rows := rows, seq := seq, tx := none, txCount := 0, issued := [], deferred := [],
    errorLog := [], log := [], errorsFile := none }

/-- The world with a call and its reply appended to the issued calls. -/
@[simps]
def World.note (w : World) (c : Call) (r : Reply) : World :=
  { w with issued := w.issued ++ [⟨c, r⟩] }

/-- The world with other committed rows. -/
@[simps]
def World.withRows (w : World) (rows : String → List Row) : World :=
  { w with rows := rows }

/-- The world with other id sequences. -/
@[simps]
def World.withSeq (w : World) (seq : String → Int) : World :=
  { w with seq := seq }

/-- The world with another open transaction (or none). -/
@[simps]
def World.withTx (w : World) (tx : Option (Nat × List Write)) : World :=
  { w with tx := tx }

/-- The world with a new transaction opened. -/
@[simps]
def World.opened (w : World) : World :=
  { w with tx := some (w.txCount, []), txCount := w.txCount + 1 }

/-- The world with a line printed by `log`. -/
@[simps]
def World.printed (w : World) (msg : String) : World :=
  { w with log := w.log ++ [msg] }

/-- The world with a message appended to `errorLog`. -/
@[simps]
def World.logged (w : World) (msg : String) : World :=
  { w with errorLog := w.errorLog ++ [msg] }

/-- The world with one more deferred rollback closure. -/
@[simps]
def World.pushed (w : World) (closure : Nat × Option GoError) : World :=
  { w with deferred := closure :: w.deferred }

/-- The world with the `err` of the latest deferred closure assigned. -/
@[simps]
def World.assigned (w : World) (err : Option GoError) : World :=
  { w with deferred :=
      match w.deferred with
      | [] => []
      | (tx, _) :: rest => (tx, err) :: rest }

/-- The world with no deferred closure left. -/
@[simps]
def World.undeferred (w : World) : World :=
  { w with deferred := [] }

/-- The world with `errors.txt` holding the given lines. -/
@[simps]
def World.filed (w : World) (lines : List String) : World :=
  { w with errorsFile := some lines }

/-- The rows a runner sees: the committed ones, and through an open
transaction also its own writes. -/
def World.visible (w : World) (r : Option Runner) : String → List Row :=
  match r, w.tx with
  | some (Runner.tx id), some (open_, ws) =>
    if id = open_ then ws.foldl applyWrite w.rows else w.rows
  | _, _ => w.rows

/-- The error of a runner that cannot run a statement now, none when it can. -/
def World.refuses (w : World) (r : Option Runner) : Option GoError :=
  match r with
  | none => some RunnerNotSet
  | some Runner.db => none
  | some (Runner.tx id) =>
    match w.tx with
    | some (open_, _) => if id = open_ then none else some ErrTxDone
    | none => some ErrTxDone

/-- A write through a runner: at once on the plain connection, into the write
set of the transaction otherwise. -/
def World.write (w : World) (r : Option Runner) (wr : Write) : World :=
  match r with
  | some Runner.db => w.withRows (applyWrite w.rows wr)
  | some (Runner.tx _) =>
    match w.tx with
    | some (open_, ws) => w.withTx (some (open_, ws ++ [wr]))
    | none => w
  | none => w

/-- The effect of an accepted statement and the value of its first result
row, none when it has no result row. -/
def World.perform (w : World) (s : Stmt) : World × Option Int :=
  match s.verb with
  | Verb.select =>
    (w, if ((w.visible s.runner s.table).any (matchesEq s.cond)) then some 1 else none)
  | Verb.delete => (w.write s.runner (Write.delete s.table s.cond), none)
  | Verb.insert =>
    if s.suffix = "RETURNING id" then
      let id := w.seq s.table
      ((w.write s.runner
          (Write.insert s.table (("id", Value.int id) :: s.columns.zip s.values))).withSeq
        (fun t => if t = s.table then id + 1 else w.seq t), some id)
    else
      (w.write s.runner (Write.insert s.table (s.columns.zip s.values)), none)

/-- The error of the next database call, if it fails: the scheduled fault, or
the refusal of the runner. -/
def World.failure (w : World) (o : Faults) (r : Option Runner) : Option GoError :=
  match o w.issued.length with
  | some msg => some (GoError.other msg)
  | none => w.refuses r

/-- The world after a failed commit or rollback: the transaction, when it was
the open one, is gone. -/
def World.closed (w : World) (tx : Nat) : World :=
  if w.refuses (some (Runner.tx tx)) = none then w.withTx none else w

/-! ## The process -/

/-- The result of a piece of `main`: it goes on with a value, or the process
has exited (`log.Fatal`). -/
inductive Res (α : Type) where
  | next (a : α) (w : World)
  | exited (w : World)

/-- The world a result ends in. -/
def Res.world {α : Type} (r : Res α) : World :=
  match r with
  | Res.next _ w => w
  | Res.exited w => w

/-- Whether the process has exited. -/
def Res.hasExited {α : Type} (r : Res α) : Bool :=
  match r with
  | Res.next _ _ => false
  | Res.exited _ => true

/-- A piece of `main`: from a world to a result. -/
def Proc (α : Type) : Type := World → Res α

/-- The rest of the program after a result: nothing runs after the process has
exited. -/
def Res.andThen {α β : Type} (r : Res α) (f : α → World → Res β) : Res β :=
  match r with
  | Res.next a w1 => f a w1
  | Res.exited w1 => Res.exited w1

/-- Sequencing of two pieces of `main`. -/
def Proc.bind {α β : Type} (m : Proc α) (f : α → Proc β) : Proc β :=
  fun w => (m w).andThen f

instance : Monad Proc where
  pure a := fun w => Res.next a w
  bind := Proc.bind

/-- Go `log.Fatal`: prints and exits with status 1.  Deferred functions do not
run; the server drops the open transaction of the closed connection. -/
def logFatal (msg : String) : Proc Unit :=
  fun w => Res.exited ((w.printed msg).withTx none)

/-- Go `log.Println` and `log.Printf`. -/
def logPrint (msg : String) : Proc Unit :=
  fun w => Res.next () (w.printed msg)

/-- Go `errorLog = append(errorLog, msg)`. -/
def appendErrorLog (msg : String) : Proc Unit :=
  fun w => Res.next () (w.logged msg)

/-- Go `db.Begin()`: the new transaction and the error. -/
def Begin (o : Faults) : Proc (Nat × Option GoError) :=
  fun w =>
    match w.failure o (some Runner.db) with
    | some e => Res.next (w.txCount, some e) (w.note Call.Begin (Reply.error e))
    | none => Res.next (w.txCount, none) (w.opened.note Call.Begin Reply.ok)

/-- Go `tx.Commit()`: the writes of the transaction become visible. -/
def Commit (o : Faults) (tx : Nat) : Proc (Option GoError) :=
  fun w =>
    match w.failure o (some (Runner.tx tx)) with
    | some e => Res.next (some e) ((w.closed tx).note (Call.Commit tx) (Reply.error e))
    | none =>
      Res.next none
        (((w.withRows (w.visible (some (Runner.tx tx)))).withTx none).note
          (Call.Commit tx) Reply.ok)

/-- Go `tx.Rollback()`: the writes of the transaction are dropped. -/
def Rollback (o : Faults) (tx : Nat) : Proc (Option GoError) :=
  fun w =>
    match w.failure o (some (Runner.tx tx)) with
    | some e => Res.next (some e) ((w.closed tx).note (Call.Rollback tx) (Reply.error e))
    | none => Res.next none ((w.withTx none).note (Call.Rollback tx) Reply.ok)

/-- Go `stmt.Exec()`: the error only. -/
def Exec (o : Faults) (s : Stmt) : Proc (Option GoError) :=
  fun w =>
    match w.failure o s.runner with
    | some e => Res.next (some e) (w.note (Call.Exec s) (Reply.error e))
    | none => Res.next none ((w.perform s).1.note (Call.Exec s) Reply.ok)

/-- Go `stmt.QueryRow().Scan(&dest)`: the error and the new value of `dest`,
which keeps its old value when there is an error. -/
def QueryRowScan (o : Faults) (s : Stmt) (dest : Int) : Proc (Option GoError × Int) :=
  fun w =>
    match w.failure o s.runner with
    | some e => Res.next (some e, dest) (w.note (Call.QueryRow s) (Reply.error e))
    | none =>
      match (w.perform s).2 with
      | some v => Res.next (none, v) ((w.perform s).1.note (Call.QueryRow s) (Reply.value v))
      | none =>
        Res.next (some GoError.ErrNoRows, dest)
          ((w.perform s).1.note (Call.QueryRow s) (Reply.error GoError.ErrNoRows))

/-- Go `defer func() ... ()` of lines 93-101: registers the rollback closure of
this iteration; it captures `tx` and the variable `err`. -/
def deferRollback (tx : Nat) (err : Option GoError) : Proc Unit :=
  fun w => Res.next () (w.pushed (tx, err))

/-- An assignment `err = ...` to the variable the latest closure captured. -/
def setErr (err : Option GoError) : Proc Unit :=
  fun w => Res.next () (w.assigned err)

/-! ## `main` (lines 63-245) -/

/-- The existence check and its branches (lines 105-122): the value of
`exists`. -/
def checkExists (o : Faults) (psql : Builder) (record : FullFilingRecord) : Proc Bool := do
  let (err, _) ← QueryRowScan o (existsQuery psql record) 0
  setErr err
  match err with
  | some GoError.ErrNoRows => pure false
  | some e => do
    logFatal ("check exists:" ++ e.Error)
    appendErrorLog ("duplicate found: " ++ e.Error)
    pure false
  | none => pure true

/-- The delete of an existing record (lines 123-136): the new value of
`exists`. -/
def deleteExisting (o : Faults) (psql : Builder) (record : FullFilingRecord)
    (exists_ : Bool) : Proc Bool :=
  if exists_ then do
    let err ← Exec o (deleteStmt psql record)
    setErr err
    match err with
    | some e => do
      logFatal ("delete existing record:" ++ e.Error)
      appendErrorLog ("delete failed: " ++ e.Error)
    | none => pure ()
    pure false
  else pure exists_

/-- The organisation insert (lines 140-164): the value of `orgID`. -/
def insertOrganisation (o : Faults) (psql : Builder) (record : FullFilingRecord) :
    Proc Int :=
  match record.Form990EZ with
  | some ez => do
    let (err, orgID) ← QueryRowScan o (orgQueryEZ psql record ez) 0
    setErr err
    match err with
    | some e => do
      logFatal ("org insert:" ++ e.Error)
      appendErrorLog ("org insert failed: " ++ e.Error)
    | none => pure ()
    pure orgID
  | none => do
    let (err, orgID) ← QueryRowScan o (orgQueryPlain psql record) 0
    setErr err
    match err with
    | some e => do
      logFatal ("org insert:" ++ e.Error)
      appendErrorLog ("org insert failed: " ++ e.Error)
    | none => pure ()
    pure orgID

/-- The location insert (lines 166-175). -/
def insertLocation (o : Faults) (psql : Builder) (orgID : Int)
    (record : FullFilingRecord) : Proc Unit := do
  let err ← Exec o (locationStmt psql orgID record)
  setErr err
  match err with
  | some e => do
    logFatal ("location insert:" ++ e.Error)
    appendErrorLog ("location insert failed: " ++ e.Error)
  | none => pure ()

/-- The metadata insert (lines 177-188). -/
def insertMetadata (o : Faults) (psql : Builder) (orgID : Int)
    (record : FullFilingRecord) : Proc Unit :=
  match record.Form990EZ with
  | some ez => do
    let err ← Exec o (metadataStmt psql orgID ez)
    setErr err
    match err with
    | some e => do
      logFatal ("metadata insert:" ++ e.Error)
      appendErrorLog ("metadata insert failed: " ++ e.Error)
    | none => pure ()
  | none => pure ()

/-- The address insert of a person (lines 205-215).  Its `err` is a variable of
its own (`:=`), not the one the deferred closure captured. -/
def insertPersonLocation (o : Faults) (psql : Builder) (personID : Int)
    (person : People) : Proc Unit :=
  match person.Address with
  | some address => do
    let err ← Exec o (personLocationStmt psql personID address)
    match err with
    | some e => do
      logFatal ("person location insert:" ++ e.Error)
      appendErrorLog ("person location insert failed: " ++ e.Error)
    | none => pure ()
  | none => pure ()

/-- One person (lines 192-215).  Its `err` is a variable of its own (`:=`). -/
def insertPerson (o : Faults) (psql : Builder) (orgID : Int) (person : People) :
    Proc Unit := do
  let (err, personID) ← QueryRowScan o (personQuery psql orgID person) 0
  match err with
  | some e => do
    logFatal ("person insert:" ++ e.Error)
    appendErrorLog ("person insert failed: " ++ e.Error)
  | none => pure ()
  insertPersonLocation o psql personID person

/-- The loop over the people of a record (lines 190-216). -/
def insertPeople (o : Faults) (psql : Builder) (orgID : Int) : List People → Proc Unit
  | [] => pure ()
  | person :: rest => do
    insertPerson o psql orgID person
    insertPeople o psql orgID rest

/-- The commit (lines 218-222). -/
def commitTx (o : Faults) (tx : Nat) : Proc Unit := do
  let err ← Commit o tx
  setErr err
  match err with
  | some e => logFatal ("commit tx:" ++ e.Error)
  | none => pure ()

/-- The start of an iteration (lines 87-101): the transaction is begun and
its rollback closure deferred. -/
def beginTx (o : Faults) : Proc Nat := do
  let (tx, err) ← Begin o
  match err with
  | some e => logFatal ("begin tx:" ++ e.Error)
  | none => pure ()
  deferRollback tx err
  pure tx

/-- The body of the loop over the records (lines 87-225). -/
def importRecord (o : Faults) (record : FullFilingRecord) : Proc Unit := do
  let tx ← beginTx o
  let psql := StatementBuilder.RunWith (Runner.tx tx)
  let exists_ ← checkExists o psql record
  let _ ← deleteExisting o psql record exists_
  let orgID ← insertOrganisation o psql record
  insertLocation o psql orgID record
  insertMetadata o psql orgID record
  insertPeople o psql orgID record.People
  commitTx o tx

/-- The loop over the records (line 86). -/
def importLoop (o : Faults) : List FullFilingRecord → Proc Unit
  | [] => pure ()
  | record :: rest => do
    importRecord o record
    importLoop o rest

/-- One deferred closure (lines 93-101) when `main` returns without a panic:
it rolls back when its `err` is not nil. -/
def runClosure (o : Faults) (closure : Nat × Option GoError) : Proc Unit :=
  match closure.2 with
  | some _ => do
    let _ ← Rollback o closure.1
    pure ()
  | none => pure ()

/-- The deferred closures, latest first. -/
def runClosures (o : Faults) : List (Nat × Option GoError) → Proc Unit
  | [] => pure ()
  | closure :: rest => do
    runClosure o closure
    runClosures o rest

/-- The deferred closures of `main`, run when it returns. -/
def runDeferred (o : Faults) : Proc Unit :=
  fun w => runClosures o w.deferred w.undeferred

/-- Go `os.Create("errors.txt")` followed by the writes of lines 238-240:
every line with its newline. -/
def writeErrorsFile (lines : List String) : Proc Unit :=
  fun w => Res.next () (w.filed (lines.map fun line => line ++ "\n"))

/-- The flush of the error log (lines 228-244).  `createErr` is the error of
`os.Create`, none when the file can be created. -/
def flushErrorLog (createErr : Option String) : Proc Unit :=
  fun w =>
    if w.errorLog.length > 0 then
      (do
        logPrint "⚠️ Errors encountered during processing:"
        match createErr with
        | some e => logPrint ("Failed to write error log: " ++ e ++ "\n")
        | none => do
          writeErrorsFile w.errorLog
          logPrint ("Wrote " ++ toString w.errorLog.length ++ " errors to errors.txt\n")) w
    else
      logPrint "✅ All records inserted successfully — no errors." w

/-- Go `main` from line 84 on, started on the given storage: the loop over the
records, the flush of the error log, and the deferred closures at the
return. -/
def main (o : Faults) (createErr : Option String) (records : List FullFilingRecord)
    (rows : String → List Row) (seq : String → Int) : Res Unit :=
  (do
    importLoop o records
    flushErrorLog createErr
    runDeferred o) (World.start rows seq)

/-! ## Properties of a run -/

/-- A call has failed when its reply is an error other than `sql.ErrNoRows`. -/
def Event.failed (ev : Event) : Bool :=
  match ev.reply with
  | Reply.error (GoError.other _) => true
  | _ => false

/-- The issued calls follow the fault schedule: a call the schedule fails has
come back with the scheduled error. -/
def Obeys (o : Faults) (w : World) : Prop :=
  ∀ k msg ev, o k = some msg → w.issued[k]? = some ev →
    ev.reply = Reply.error (GoError.other msg)

/-- The state of a run that goes on: no call has failed, nothing was appended
to `errorLog`, `errors.txt` was not created, and of the deferred closures only
the latest may hold an error. -/
structure Running (o : Faults) (w : World) : Prop where
  obeys : Obeys o w
  noFailure : ∀ ev ∈ w.issued, ev.failed = false
  tailNil : ∀ c ∈ w.deferred.tail, c.2 = none
  errorLog : w.errorLog = []
  errorsFile : w.errorsFile = none

/-- The state of a run between two iterations: it goes on, and no deferred
closure holds an error. -/
structure Settled (o : Faults) (w : World) : Prop where
  running : Running o w
  deferredNil : ∀ c ∈ w.deferred, c.2 = none

/-- The state of a run that has exited: only the last call issued may have
failed, nothing was appended to `errorLog` and `errors.txt` was not created. -/
structure Halted (o : Faults) (w : World) : Prop where
  obeys : Obeys o w
  lastOnly : ∀ pre ev post, w.issued = pre ++ ev :: post → ev.failed = true → post = []
  errorLog : w.errorLog = []
  errorsFile : w.errorsFile = none

/-- A result meets `Q` when the process goes on and `E` when it has exited. -/
def Res.Meets {α : Type} (r : Res α) (Q E : World → Prop) : Prop :=
  match r with
  | Res.next _ w => Q w
  | Res.exited w => E w

/-! ## The calls and writes of an import the database accepts

What a successful import of one record is expected to issue: one
organisation insert, one location insert, the metadata insert when Form990EZ
is present, and for each person in input order its insert followed by the
insert of its address, when it has one. -/

/-- The filter on the natural key of a record. -/
def keyOf (record : FullFilingRecord) : List (String × Value) :=
  [("ein", Value.str record.EIN), ("dln", Value.str record.DLN)]

/-- Whether an organisation row with the key of the record is in storage. -/
def existsIn (rows : String → List Row) (record : FullFilingRecord) : Bool :=
  (rows "website.organisations").any (matchesEq (keyOf record))

/-- The row an insert statement creates, with its generated id when it has one. -/
def rowOf (s : Stmt) (id : Option Int) : Row :=
  match id with
  | some i => ("id", Value.int i) :: s.columns.zip s.values
  | none => s.columns.zip s.values

/-- The accepted calls of the people loop; `personID` is the next id of the
people table. -/
def peopleCalls (psql : Builder) (orgID : Int) : Int → List People → List Event
  | _, [] => []
  | personID, person :: rest =>
    ⟨Call.QueryRow (personQuery psql orgID person), Reply.value personID⟩ ::
      ((match person.Address with
        | some a => [⟨Call.Exec (personLocationStmt psql personID a), Reply.ok⟩]
        | none => []) ++ peopleCalls psql orgID (personID + 1) rest)

/-- The writes of the people loop. -/
def peopleWrites (psql : Builder) (orgID : Int) : Int → List People → List Write
  | _, [] => []
  | personID, person :: rest =>
    Write.insert "website.people" (rowOf (personQuery psql orgID person) (some personID)) ::
      ((match person.Address with
        | some a =>
          [Write.insert "website.people_locations"
            (rowOf (personLocationStmt psql personID a) none)]
        | none => []) ++ peopleWrites psql orgID (personID + 1) rest)

/-- The insert calls of an accepted import, in order. -/
def insertCalls (psql : Builder) (record : FullFilingRecord) (orgID personID : Int) :
    List Event :=
  [⟨Call.QueryRow (orgQuery psql record), Reply.value orgID⟩,
    ⟨Call.Exec (locationStmt psql orgID record), Reply.ok⟩] ++
  (match record.Form990EZ with
    | some ez => [⟨Call.Exec (metadataStmt psql orgID ez), Reply.ok⟩]
    | none => []) ++
  peopleCalls psql orgID personID record.People

/-- All the calls of an accepted import of a record: `tx` is the number of its
transaction, `existed` whether its key was in storage, `orgID` and `personID`
the next ids of the organisations and people tables. -/
def recordCalls (record : FullFilingRecord) (tx : Nat) (existed : Bool)
    (orgID personID : Int) : List Event :=
  [⟨Call.Begin, Reply.ok⟩,
    ⟨Call.QueryRow (existsQuery (StatementBuilder.RunWith (Runner.tx tx)) record),
      if existed then Reply.value 1 else Reply.error GoError.ErrNoRows⟩] ++
  (if existed then
    [⟨Call.Exec (deleteStmt (StatementBuilder.RunWith (Runner.tx tx)) record), Reply.ok⟩]
   else []) ++
  insertCalls (StatementBuilder.RunWith (Runner.tx tx)) record orgID personID ++
  [⟨Call.Commit tx, Reply.ok⟩]

/-- All the writes of an accepted import of a record. -/
def recordWrites (record : FullFilingRecord) (tx : Nat) (existed : Bool)
    (orgID personID : Int) : List Write :=
  (if existed then [Write.delete "website.organisations" (keyOf record)] else []) ++
  [Write.insert "website.organisations"
      (rowOf (orgQuery (StatementBuilder.RunWith (Runner.tx tx)) record) (some orgID)),
    Write.insert "website.organisation_locations"
      (rowOf (locationStmt (StatementBuilder.RunWith (Runner.tx tx)) orgID record) none)] ++
  (match record.Form990EZ with
    | some ez =>
      [Write.insert "website.organisation_metadata"
        (rowOf (metadataStmt (StatementBuilder.RunWith (Runner.tx tx)) orgID ez) none)]
    | none => []) ++
  peopleWrites (StatementBuilder.RunWith (Runner.tx tx)) orgID personID record.People

/-- A piece of an import went from `w` to `w2` by issuing `calls` and applying
`writes` on the plain connection, the open transaction untouched. -/
structure Did (w w2 : World) (calls : List Event) (writes : List Write) : Prop where
  issued : w2.issued = w.issued ++ calls
  rows : w2.rows = writes.foldl applyWrite w.rows
  tx : w2.tx = w.tx

/-! ## The natural key of the organisation rows -/

/-- The table a write changes. -/
def Write.table (wr : Write) : String :=
  match wr with
  | Write.insert t _ => t
  | Write.delete t _ => t

/-- Whether a write is an insert. -/
def Write.isInsert (wr : Write) : Bool :=
  match wr with
  | Write.insert _ _ => true
  | Write.delete _ _ => false

/-- The (EIN, DLN) pair of an organisation row. -/
def orgKey (r : Row) : Option Value × Option Value :=
  (r.lookup "ein", r.lookup "dln")

/-- No two organisation rows share an (EIN, DLN) pair. -/
def UniqueKeys (rows : String → List Row) : Prop :=
  ((rows "website.organisations").map orgKey).Nodup

/-- The organisation rows with the key of a record. -/
def rowsWithKey (rows : String → List Row) (record : FullFilingRecord) : List Row :=
  (rows "website.organisations").filter (matchesEq (keyOf record))

/-! ## Reading the issued calls -/

/-- The statement of a call, none for begin, commit and rollback. -/
def Call.stmt (c : Call) : Option Stmt :=
  match c with
  | Call.QueryRow s => some s
  | Call.Exec s => some s
  | _ => none

/-- Whether a call is an insert. -/
def Event.isInsert (ev : Event) : Bool :=
  match ev.call.stmt with
  | some s => decide (s.verb = Verb.insert)
  | none => false

/-- Whether a call is an insert into the given table. -/
def Event.insertsInto (table : String) (ev : Event) : Bool :=
  match ev.call.stmt with
  | some s => decide (s.verb = Verb.insert) && decide (s.table = table)
  | none => false

/-- Whether a call is a delete. -/
def Event.isDelete (ev : Event) : Bool :=
  match ev.call.stmt with
  | some s => decide (s.verb = Verb.delete)
  | none => false

/-- The first value bound to the statement of a call: for the inserts of
`main` other than the organisation insert, the foreign key. -/
def Event.firstValue (ev : Event) : Option Value :=
  match ev.call.stmt with
  | some s => s.values.head?
  | none => none

/-- The calls issued from world `w` to world `w2`. -/
def callsSince (w w2 : World) : List Event :=
  w2.issued.drop w.issued.length

/-- An address insert comes right after a person insert and carries the id that
insert returned. -/
def Linked (prev cur : Event) : Prop :=
  cur.insertsInto "website.people_locations" = true →
    prev.insertsInto "website.people" = true ∧
      ∃ id, prev.reply = Reply.value id ∧ cur.firstValue = some (Value.int id)

/-- How many people of a record have an address. -/
def addressCount (people : List People) : Nat :=
  (people.filter fun person => person.Address.isSome).length

/-! ## Concrete inputs -/

/-- The database accepts every call. -/
def noFaults : Faults := fun _ => none

/-- The database fails the k-th call of the run (counted from 0) with the
given error text and accepts the others. -/
def failAt (k : Nat) (msg : String) : Faults := fun i => if i = k then some msg else none

/-- Empty tables. -/
def emptyStorage : String → List Row := fun _ => []

/-- Id sequences that start at 1. -/
def freshSeq : String → Int := fun _ => 1

/-- The Acme Foundation record of the specification (section 8); the fields
the example leaves open are filled in. -/
def acme : FullFilingRecord :=
  { EIN := "12-3456789"
    Name := "Acme Foundation"
    DLN := "X1"
    ObjectID := "obj-1"
    XMLBatchID := "batch-1"
    Location := ⟨"1 Main Street", "Springfield", "IL", "62701"⟩
    People :=
      [{ PersonName := "Jane Doe"
         PersonTitle := "Treasurer"
         PhoneNumber := none
         AverageHours := none
         Bookkeeper := true
         Compensation := none
         Address := none }]
    Form990 := none
    Form990EZ := some ⟨1000, 900, 800, 100, "education", "https://acme.example"⟩ }

/-- A record without Form990EZ and without people. -/
def plain : FullFilingRecord :=
  { EIN := "98-7654321"
    Name := "Plain Trust"
    DLN := "Y2"
    ObjectID := "obj-2"
    XMLBatchID := "batch-2"
    Location := ⟨"2 Side Street", "Shelbyville", "IL", "62565"⟩
    People := []
    Form990 := none
    Form990EZ := none }

/-- The columns of `organisation_metadata` in the documented schema
(specification, section 6). -/
def documentedMetadataColumns : List String :=
  ["organisation_id", "gross_receipts_amt", "total_revenue_amt", "total_expenses_amt",
    "excess_or_deficit_for_year_amt"]

/-- A storage that already holds an organisation row with the key of the Acme
record, imported earlier under another name and batch, and a row of another
organisation. -/
def storageWithAcme : String → List Row := fun t =>
  if t = "website.organisations" then
    [[("id", Value.int 7), ("name", Value.str "Acme (old)"), ("ein", Value.str "12-3456789"),
        ("dln", Value.str "X1"), ("xml_batch_id", Value.str "batch-0")],
      [("id", Value.int 8), ("name", Value.str "Other Fund"), ("ein", Value.str "55-5555555"),
        ("dln", Value.str "Z9"), ("xml_batch_id", Value.str "batch-0")]]
  else if t = "website.organisation_locations" then
    [[("organisation_id", Value.int 7), ("address_line_1", Value.str "9 Old Road"),
      ("city", Value.str "Springfield"), ("state", Value.str "IL"),
      ("zip_code", Value.str "62701")]]
  else []

/-- Id sequences past the ids of `storageWithAcme`. -/
def laterSeq : String → Int := fun _ => 20

/-! ## Calculation rules for the process -/

@[simp] theorem andThen_next {α β : Type} (a : α) (w : World) (f : α → World → Res β) :
    (Res.next a w).andThen f = f a w := rfl

@[simp] theorem andThen_exited {α β : Type} (w : World) (f : α → World → Res β) :
    (Res.exited w : Res α).andThen f = Res.exited w := rfl

@[simp] theorem bind_apply {α β : Type} (m : Proc α) (f : α → Proc β) (w : World) :
    (m >>= f) w = (m w).andThen f := rfl

@[simp] theorem pure_apply {α : Type} (a : α) (w : World) :
    (pure a : Proc α) w = Res.next a w := rfl

@[simp] theorem world_next {α : Type} (a : α) (w : World) : (Res.next a w).world = w := rfl

@[simp] theorem world_exited {α : Type} (w : World) : (Res.exited w : Res α).world = w := rfl

@[simp] theorem hasExited_next {α : Type} (a : α) (w : World) :
    (Res.next a w).hasExited = false := rfl

@[simp] theorem hasExited_exited {α : Type} (w : World) :
    (Res.exited w : Res α).hasExited = true := rfl

theorem andThen_eq_next {α β : Type} {r : Res α} {f : α → World → Res β} {b : β}
    {w2 : World} (h : r.andThen f = Res.next b w2) :
    ∃ a w1, r = Res.next a w1 ∧ f a w1 = Res.next b w2 := by
  cases r with
  | next a w1 => exact ⟨a, w1, rfl, h⟩
  | exited w1 => simp at h

@[simp] theorem failure_db (w : World) (o : Faults) :
    w.failure o (some Runner.db) = (o w.issued.length).map GoError.other := by
  unfold World.failure World.refuses
  cases o w.issued.length <;> rfl

/-! ## The tables and sequences under the changes of the world -/

@[simp] theorem note_rows_eq (w : World) (c : Call) (r : Reply) : (w.note c r).rows = w.rows := rfl

@[simp] theorem note_seq_eq (w : World) (c : Call) (r : Reply) : (w.note c r).seq = w.seq := rfl

@[simp] theorem withTx_rows_eq (w : World) (t : Option (Nat × List Write)) :
    (w.withTx t).rows = w.rows := rfl

@[simp] theorem withTx_seq_eq (w : World) (t : Option (Nat × List Write)) :
    (w.withTx t).seq = w.seq := rfl

@[simp] theorem opened_rows_eq (w : World) : (w.opened).rows = w.rows := rfl

@[simp] theorem opened_seq_eq (w : World) : (w.opened).seq = w.seq := rfl

@[simp] theorem printed_rows_eq (w : World) (msg : String) : (w.printed msg).rows = w.rows := rfl

@[simp] theorem printed_seq_eq (w : World) (msg : String) : (w.printed msg).seq = w.seq := rfl

@[simp] theorem logged_rows_eq (w : World) (msg : String) : (w.logged msg).rows = w.rows := rfl

@[simp] theorem logged_seq_eq (w : World) (msg : String) : (w.logged msg).seq = w.seq := rfl

@[simp] theorem pushed_rows_eq (w : World) (c : Nat × Option GoError) :
    (w.pushed c).rows = w.rows := rfl

@[simp] theorem pushed_seq_eq (w : World) (c : Nat × Option GoError) :
    (w.pushed c).seq = w.seq := rfl

@[simp] theorem assigned_rows_eq (w : World) (e : Option GoError) :
    (w.assigned e).rows = w.rows := rfl

@[simp] theorem assigned_seq_eq (w : World) (e : Option GoError) : (w.assigned e).seq = w.seq := rfl

@[simp] theorem undeferred_rows_eq (w : World) : (w.undeferred).rows = w.rows := rfl

@[simp] theorem undeferred_seq_eq (w : World) : (w.undeferred).seq = w.seq := rfl

@[simp] theorem filed_rows_eq (w : World) (lines : List String) :
    (w.filed lines).rows = w.rows := rfl

@[simp] theorem filed_seq_eq (w : World) (lines : List String) : (w.filed lines).seq = w.seq := rfl

@[simp] theorem withRows_rows_eq (w : World) (rows : String → List Row) :
    (w.withRows rows).rows = rows := rfl

@[simp] theorem withRows_seq_eq (w : World) (rows : String → List Row) :
    (w.withRows rows).seq = w.seq := rfl

@[simp] theorem withSeq_rows_eq (w : World) (seq : String → Int) :
    (w.withSeq seq).rows = w.rows := rfl

@[simp] theorem withSeq_seq_eq (w : World) (seq : String → Int) :
    (w.withSeq seq).seq = seq := rfl

/-! ## The statements of `main`: what they are run on -/

@[simp] theorem existsQuery_runner (psql : Builder) (record : FullFilingRecord) :
    (existsQuery psql record).runner = some Runner.db := rfl

@[simp] theorem existsQuery_verb (psql : Builder) (record : FullFilingRecord) :
    (existsQuery psql record).verb = Verb.select := rfl

@[simp] theorem existsQuery_table (psql : Builder) (record : FullFilingRecord) :
    (existsQuery psql record).table = "website.organisations" := rfl

@[simp] theorem existsQuery_cond (psql : Builder) (record : FullFilingRecord) :
    (existsQuery psql record).cond =
      [("ein", Value.str record.EIN), ("dln", Value.str record.DLN)] := rfl

@[simp] theorem deleteStmt_runner (psql : Builder) (record : FullFilingRecord) :
    (deleteStmt psql record).runner = some Runner.db := rfl

@[simp] theorem deleteStmt_verb (psql : Builder) (record : FullFilingRecord) :
    (deleteStmt psql record).verb = Verb.delete := rfl

@[simp] theorem deleteStmt_table (psql : Builder) (record : FullFilingRecord) :
    (deleteStmt psql record).table = "website.organisations" := rfl

@[simp] theorem deleteStmt_cond (psql : Builder) (record : FullFilingRecord) :
    (deleteStmt psql record).cond =
      [("ein", Value.str record.EIN), ("dln", Value.str record.DLN)] := rfl

@[simp] theorem orgQuery_runner (psql : Builder) (record : FullFilingRecord) :
    (orgQuery psql record).runner = some Runner.db := by
  unfold orgQuery; cases record.Form990EZ <;> rfl

@[simp] theorem orgQuery_verb (psql : Builder) (record : FullFilingRecord) :
    (orgQuery psql record).verb = Verb.insert := by
  unfold orgQuery; cases record.Form990EZ <;> rfl

@[simp] theorem orgQuery_table (psql : Builder) (record : FullFilingRecord) :
    (orgQuery psql record).table = "website.organisations" := by
  unfold orgQuery; cases record.Form990EZ <;> rfl

@[simp] theorem orgQuery_suffix (psql : Builder) (record : FullFilingRecord) :
    (orgQuery psql record).suffix = "RETURNING id" := by
  unfold orgQuery; cases record.Form990EZ <;> rfl

@[simp] theorem locationStmt_runner (psql : Builder) (orgID : Int) (record : FullFilingRecord) :
    (locationStmt psql orgID record).runner = some Runner.db := rfl

@[simp] theorem locationStmt_verb (psql : Builder) (orgID : Int) (record : FullFilingRecord) :
    (locationStmt psql orgID record).verb = Verb.insert := rfl

@[simp] theorem locationStmt_table (psql : Builder) (orgID : Int) (record : FullFilingRecord) :
    (locationStmt psql orgID record).table = "website.organisation_locations" := rfl

@[simp] theorem locationStmt_suffix (psql : Builder) (orgID : Int) (record : FullFilingRecord) :
    (locationStmt psql orgID record).suffix = "" := rfl

@[simp] theorem metadataStmt_runner (psql : Builder) (orgID : Int) (ez : IRS990EZ) :
    (metadataStmt psql orgID ez).runner = some Runner.db := rfl

@[simp] theorem metadataStmt_verb (psql : Builder) (orgID : Int) (ez : IRS990EZ) :
    (metadataStmt psql orgID ez).verb = Verb.insert := rfl

@[simp] theorem metadataStmt_table (psql : Builder) (orgID : Int) (ez : IRS990EZ) :
    (metadataStmt psql orgID ez).table = "website.organisation_metadata" := rfl

@[simp] theorem metadataStmt_suffix (psql : Builder) (orgID : Int) (ez : IRS990EZ) :
    (metadataStmt psql orgID ez).suffix = "" := rfl

@[simp] theorem personQuery_runner (psql : Builder) (orgID : Int) (person : People) :
    (personQuery psql orgID person).runner = some Runner.db := rfl

@[simp] theorem personQuery_verb (psql : Builder) (orgID : Int) (person : People) :
    (personQuery psql orgID person).verb = Verb.insert := rfl

@[simp] theorem personQuery_table (psql : Builder) (orgID : Int) (person : People) :
    (personQuery psql orgID person).table = "website.people" := rfl

@[simp] theorem personQuery_suffix (psql : Builder) (orgID : Int) (person : People) :
    (personQuery psql orgID person).suffix = "RETURNING id" := rfl

@[simp] theorem personLocationStmt_runner (psql : Builder) (personID : Int) (a : Address) :
    (personLocationStmt psql personID a).runner = some Runner.db := rfl

@[simp] theorem personLocationStmt_verb (psql : Builder) (personID : Int) (a : Address) :
    (personLocationStmt psql personID a).verb = Verb.insert := rfl

@[simp] theorem personLocationStmt_table (psql : Builder) (personID : Int) (a : Address) :
    (personLocationStmt psql personID a).table = "website.people_locations" := rfl

@[simp] theorem personLocationStmt_suffix (psql : Builder) (personID : Int) (a : Address) :
    (personLocationStmt psql personID a).suffix = "" := rfl

/-! ## The database calls on the plain connection -/

theorem perform_insert_db (w : World) (s : Stmt) (hr : s.runner = some Runner.db)
    (hv : s.verb = Verb.insert) (hs : s.suffix = "") :
    w.perform s =
      (w.withRows (applyWrite w.rows (Write.insert s.table (s.columns.zip s.values))),
        none) := by
  unfold World.perform World.write
  simp [hr, hv, hs]

theorem perform_returning_db (w : World) (s : Stmt) (hr : s.runner = some Runner.db)
    (hv : s.verb = Verb.insert) (hs : s.suffix = "RETURNING id") :
    w.perform s =
      ((w.withRows (applyWrite w.rows
          (Write.insert s.table
            (("id", Value.int (w.seq s.table)) :: s.columns.zip s.values)))).withSeq
        (fun t => if t = s.table then w.seq s.table + 1 else w.seq t),
        some (w.seq s.table)) := by
  unfold World.perform World.write
  simp [hr, hv, hs]

theorem perform_delete_db (w : World) (s : Stmt) (hr : s.runner = some Runner.db)
    (hv : s.verb = Verb.delete) :
    w.perform s = (w.withRows (applyWrite w.rows (Write.delete s.table s.cond)), none) := by
  unfold World.perform World.write
  simp [hr, hv]

theorem perform_select_db (w : World) (s : Stmt) (hr : s.runner = some Runner.db)
    (hv : s.verb = Verb.select) :
    w.perform s = (w, if (w.rows s.table).any (matchesEq s.cond) then some 1 else none) := by
  unfold World.perform World.visible
  simp [hr, hv]

/-- An insert without result row, run on the plain connection. -/
theorem Exec_insert_db (o : Faults) (w : World) (s : Stmt) (hr : s.runner = some Runner.db)
    (hv : s.verb = Verb.insert) (hs : s.suffix = "") :
    Exec o s w =
      match o w.issued.length with
      | some msg =>
        Res.next (some (GoError.other msg))
          (w.note (Call.Exec s) (Reply.error (GoError.other msg)))
      | none =>
        Res.next none
          ((w.withRows (applyWrite w.rows (Write.insert s.table (s.columns.zip s.values)))).note
            (Call.Exec s) Reply.ok) := by
  unfold Exec
  rw [hr, failure_db, perform_insert_db w s hr hv hs]
  cases o w.issued.length <;> rfl

/-- A delete run on the plain connection. -/
theorem Exec_delete_db (o : Faults) (w : World) (s : Stmt) (hr : s.runner = some Runner.db)
    (hv : s.verb = Verb.delete) :
    Exec o s w =
      match o w.issued.length with
      | some msg =>
        Res.next (some (GoError.other msg))
          (w.note (Call.Exec s) (Reply.error (GoError.other msg)))
      | none =>
        Res.next none
          ((w.withRows (applyWrite w.rows (Write.delete s.table s.cond))).note
            (Call.Exec s) Reply.ok) := by
  unfold Exec
  rw [hr, failure_db, perform_delete_db w s hr hv]
  cases o w.issued.length <;> rfl

/-- An insert returning its id, run on the plain connection. -/
theorem QueryRowScan_returning_db (o : Faults) (w : World) (s : Stmt) (dest : Int)
    (hr : s.runner = some Runner.db) (hv : s.verb = Verb.insert)
    (hs : s.suffix = "RETURNING id") :
    QueryRowScan o s dest w =
      match o w.issued.length with
      | some msg =>
        Res.next (some (GoError.other msg), dest)
          (w.note (Call.QueryRow s) (Reply.error (GoError.other msg)))
      | none =>
        Res.next (none, w.seq s.table)
          (((w.withRows (applyWrite w.rows
              (Write.insert s.table
                (("id", Value.int (w.seq s.table)) :: s.columns.zip s.values)))).withSeq
            (fun t => if t = s.table then w.seq s.table + 1 else w.seq t)).note
            (Call.QueryRow s) (Reply.value (w.seq s.table))) := by
  unfold QueryRowScan
  rw [hr, failure_db, perform_returning_db w s hr hv hs]
  cases o w.issued.length <;> rfl

/-- A select run on the plain connection. -/
theorem QueryRowScan_select_db (o : Faults) (w : World) (s : Stmt) (dest : Int)
    (hr : s.runner = some Runner.db) (hv : s.verb = Verb.select) :
    QueryRowScan o s dest w =
      match o w.issued.length with
      | some msg =>
        Res.next (some (GoError.other msg), dest)
          (w.note (Call.QueryRow s) (Reply.error (GoError.other msg)))
      | none =>
        if (w.rows s.table).any (matchesEq s.cond) then
          Res.next (none, 1) (w.note (Call.QueryRow s) (Reply.value 1))
        else
          Res.next (some GoError.ErrNoRows, dest)
            (w.note (Call.QueryRow s) (Reply.error GoError.ErrNoRows)) := by
  unfold QueryRowScan
  rw [hr, failure_db, perform_select_db w s hr hv]
  cases o w.issued.length with
  | some msg => rfl
  | none =>
    by_cases hany : (w.rows s.table).any (matchesEq s.cond) = true
    · simp [hany]
    · simp [hany]

/-! ## The pieces of an iteration, evaluated -/

theorem beginTx_eval (o : Faults) (w : World) :
    beginTx o w =
      match o w.issued.length with
      | some msg =>
        Res.exited
          (((w.note Call.Begin (Reply.error (GoError.other msg))).printed
            ("begin tx:" ++ msg)).withTx none)
      | none =>
        Res.next w.txCount
          ((w.opened.note Call.Begin Reply.ok).pushed (w.txCount, none)) := by
  unfold beginTx
  simp only [bind_apply, Begin, failure_db]
  cases o w.issued.length <;> rfl

theorem checkExists_eval (o : Faults) (psql : Builder) (record : FullFilingRecord)
    (w : World) :
    checkExists o psql record w =
      match o w.issued.length with
      | some msg =>
        Res.exited
          ((((w.note (Call.QueryRow (existsQuery psql record))
            (Reply.error (GoError.other msg))).assigned (some (GoError.other msg))).printed
            ("check exists:" ++ msg)).withTx none)
      | none =>
        if (w.rows "website.organisations").any
            (matchesEq [("ein", Value.str record.EIN), ("dln", Value.str record.DLN)]) then
          Res.next true
            ((w.note (Call.QueryRow (existsQuery psql record)) (Reply.value 1)).assigned none)
        else
          Res.next false
            ((w.note (Call.QueryRow (existsQuery psql record))
              (Reply.error GoError.ErrNoRows)).assigned (some GoError.ErrNoRows)) := by
  unfold checkExists
  simp only [bind_apply]
  rw [QueryRowScan_select_db o w _ 0 (existsQuery_runner _ _) (existsQuery_verb _ _)]
  cases o w.issued.length with
  | some msg => rfl
  | none =>
    simp only [existsQuery_table, existsQuery_cond]
    split <;> rfl

theorem deleteExisting_eval (o : Faults) (psql : Builder) (record : FullFilingRecord)
    (w : World) :
    deleteExisting o psql record true w =
      match o w.issued.length with
      | some msg =>
        Res.exited
          ((((w.note (Call.Exec (deleteStmt psql record))
            (Reply.error (GoError.other msg))).assigned (some (GoError.other msg))).printed
            ("delete existing record:" ++ msg)).withTx none)
      | none =>
        Res.next false
          (((w.withRows (applyWrite w.rows (Write.delete "website.organisations"
              [("ein", Value.str record.EIN), ("dln", Value.str record.DLN)]))).note
            (Call.Exec (deleteStmt psql record)) Reply.ok).assigned none) := by
  unfold deleteExisting
  simp only [if_true, bind_apply]
  rw [Exec_delete_db o w _ (deleteStmt_runner _ _) (deleteStmt_verb _ _)]
  cases o w.issued.length <;> rfl

theorem deleteExisting_false (o : Faults) (psql : Builder) (record : FullFilingRecord)
    (w : World) : deleteExisting o psql record false w = Res.next false w := rfl

theorem insertOrganisation_eval (o : Faults) (psql : Builder) (record : FullFilingRecord)
    (w : World) :
    insertOrganisation o psql record w =
      match o w.issued.length with
      | some msg =>
        Res.exited
          ((((w.note (Call.QueryRow (orgQuery psql record))
            (Reply.error (GoError.other msg))).assigned (some (GoError.other msg))).printed
            ("org insert:" ++ msg)).withTx none)
      | none =>
        Res.next (w.seq "website.organisations")
          ((((w.withRows (applyWrite w.rows (Write.insert "website.organisations"
              (("id", Value.int (w.seq "website.organisations")) ::
                (orgQuery psql record).columns.zip (orgQuery psql record).values)))).withSeq
            (fun t => if t = "website.organisations" then w.seq "website.organisations" + 1
              else w.seq t)).note
            (Call.QueryRow (orgQuery psql record))
            (Reply.value (w.seq "website.organisations"))).assigned none) := by
  unfold insertOrganisation orgQuery
  cases record.Form990EZ with
  | none =>
    simp only [bind_apply]
    rw [QueryRowScan_returning_db o w _ 0 rfl rfl rfl]
    cases o w.issued.length <;> rfl
  | some ez =>
    simp only [bind_apply]
    rw [QueryRowScan_returning_db o w _ 0 rfl rfl rfl]
    cases o w.issued.length <;> rfl

theorem insertLocation_eval (o : Faults) (psql : Builder) (orgID : Int)
    (record : FullFilingRecord) (w : World) :
    insertLocation o psql orgID record w =
      match o w.issued.length with
      | some msg =>
        Res.exited
          ((((w.note (Call.Exec (locationStmt psql orgID record))
            (Reply.error (GoError.other msg))).assigned (some (GoError.other msg))).printed
            ("location insert:" ++ msg)).withTx none)
      | none =>
        Res.next ()
          (((w.withRows (applyWrite w.rows (Write.insert "website.organisation_locations"
              ((locationStmt psql orgID record).columns.zip
                (locationStmt psql orgID record).values)))).note
            (Call.Exec (locationStmt psql orgID record)) Reply.ok).assigned none) := by
  unfold insertLocation
  simp only [bind_apply]
  rw [Exec_insert_db o w _ rfl rfl rfl]
  cases o w.issued.length <;> rfl

theorem insertMetadata_eval (o : Faults) (psql : Builder) (orgID : Int)
    (record : FullFilingRecord) (ez : IRS990EZ) (hez : record.Form990EZ = some ez)
    (w : World) :
    insertMetadata o psql orgID record w =
      match o w.issued.length with
      | some msg =>
        Res.exited
          ((((w.note (Call.Exec (metadataStmt psql orgID ez))
            (Reply.error (GoError.other msg))).assigned (some (GoError.other msg))).printed
            ("metadata insert:" ++ msg)).withTx none)
      | none =>
        Res.next ()
          (((w.withRows (applyWrite w.rows (Write.insert "website.organisation_metadata"
              ((metadataStmt psql orgID ez).columns.zip
                (metadataStmt psql orgID ez).values)))).note
            (Call.Exec (metadataStmt psql orgID ez)) Reply.ok).assigned none) := by
  unfold insertMetadata
  rw [hez]
  simp only [bind_apply]
  rw [Exec_insert_db o w _ rfl rfl rfl]
  cases o w.issued.length <;> rfl

theorem insertMetadata_none (o : Faults) (psql : Builder) (orgID : Int)
    (record : FullFilingRecord) (hez : record.Form990EZ = none) (w : World) :
    insertMetadata o psql orgID record w = Res.next () w := by
  unfold insertMetadata
  rw [hez]
  rfl

theorem insertPersonLocation_eval (o : Faults) (psql : Builder) (personID : Int)
    (person : People) (a : Address) (ha : person.Address = some a) (w : World) :
    insertPersonLocation o psql personID person w =
      match o w.issued.length with
      | some msg =>
        Res.exited
          (((w.note (Call.Exec (personLocationStmt psql personID a))
            (Reply.error (GoError.other msg))).printed
            ("person location insert:" ++ msg)).withTx none)
      | none =>
        Res.next ()
          ((w.withRows (applyWrite w.rows (Write.insert "website.people_locations"
              ((personLocationStmt psql personID a).columns.zip
                (personLocationStmt psql personID a).values)))).note
            (Call.Exec (personLocationStmt psql personID a)) Reply.ok) := by
  unfold insertPersonLocation
  rw [ha]
  simp only [bind_apply]
  rw [Exec_insert_db o w _ rfl rfl rfl]
  cases o w.issued.length <;> rfl

theorem insertPersonLocation_none (o : Faults) (psql : Builder) (personID : Int)
    (person : People) (ha : person.Address = none) (w : World) :
    insertPersonLocation o psql personID person w = Res.next () w := by
  unfold insertPersonLocation
  rw [ha]
  rfl

theorem insertPerson_eval (o : Faults) (psql : Builder) (orgID : Int) (person : People)
    (w : World) :
    insertPerson o psql orgID person w =
      match o w.issued.length with
      | some msg =>
        Res.exited
          (((w.note (Call.QueryRow (personQuery psql orgID person))
            (Reply.error (GoError.other msg))).printed
            ("person insert:" ++ msg)).withTx none)
      | none =>
        insertPersonLocation o psql (w.seq "website.people") person
          (((w.withRows (applyWrite w.rows (Write.insert "website.people"
              (("id", Value.int (w.seq "website.people")) ::
                (personQuery psql orgID person).columns.zip
                  (personQuery psql orgID person).values)))).withSeq
            (fun t => if t = "website.people" then w.seq "website.people" + 1
              else w.seq t)).note
            (Call.QueryRow (personQuery psql orgID person))
            (Reply.value (w.seq "website.people"))) := by
  unfold insertPerson
  simp only [bind_apply]
  rw [QueryRowScan_returning_db o w _ 0 rfl rfl rfl]
  cases o w.issued.length <;> rfl

/-! ## A run that goes on, a run that has exited -/

theorem meets_andThen {α β : Type} {r : Res α} {f : α → World → Res β}
    {Q R E : World → Prop} (hr : r.Meets Q E) (hf : ∀ a w, Q w → (f a w).Meets R E) :
    (r.andThen f).Meets R E := by
  cases r with
  | next a w => exact hf a w hr
  | exited w => exact hr

theorem obeys_append {o : Faults} {w w2 : World} {c : Call} {r : Reply} (hw : Obeys o w)
    (hi : w2.issued = w.issued ++ [⟨c, r⟩])
    (hob : ∀ msg, o w.issued.length = some msg → r = Reply.error (GoError.other msg)) :
    Obeys o w2 := by
  intro k msg e hk he
  rw [hi] at he
  rcases Nat.lt_or_ge k w.issued.length with hlt | hge
  · rw [List.getElem?_append_left hlt] at he
    exact hw k msg e hk he
  · rw [List.getElem?_append_right hge] at he
    rcases Nat.eq_or_lt_of_le hge with heq | hgt
    · rw [← heq] at he
      simp at he
      rw [← he]
      exact hob msg (heq ▸ hk)
    · have : k - w.issued.length ≠ 0 := by omega
      obtain ⟨j, hj⟩ := Nat.exists_eq_succ_of_ne_zero this
      rw [hj] at he
      simp at he

/-- After one more call that did not fail the run goes on. -/
theorem running_step {o : Faults} {w w2 : World} {c : Call} {r : Reply}
    (hw : Running o w) (hi : w2.issued = w.issued ++ [⟨c, r⟩])
    (hob : ∀ msg, o w.issued.length = some msg → r = Reply.error (GoError.other msg))
    (hev : Event.failed ⟨c, r⟩ = false) (hd : w2.deferred.tail = w.deferred.tail)
    (hl : w2.errorLog = w.errorLog) (hf : w2.errorsFile = w.errorsFile) : Running o w2 where
  obeys := obeys_append hw.obeys hi hob
  noFailure := by
    intro e he
    rw [hi, List.mem_append, List.mem_singleton] at he
    rcases he with he | he
    · exact hw.noFailure e he
    · rw [he]; exact hev
  tailNil := by rw [hd]; exact hw.tailNil
  errorLog := by rw [hl]; exact hw.errorLog
  errorsFile := by rw [hf]; exact hw.errorsFile

/-- After one more call, whatever its reply, the run may exit. -/
theorem halted_step {o : Faults} {w w2 : World} {c : Call} {r : Reply}
    (hw : Running o w) (hi : w2.issued = w.issued ++ [⟨c, r⟩])
    (hob : ∀ msg, o w.issued.length = some msg → r = Reply.error (GoError.other msg))
    (hl : w2.errorLog = w.errorLog) (hf : w2.errorsFile = w.errorsFile) : Halted o w2 where
  obeys := obeys_append hw.obeys hi hob
  lastOnly := by
    intro pre e post hsplit hfail
    rw [hi] at hsplit
    rcases List.eq_nil_or_concat post with hnil | ⟨post1, last, hpost⟩
    · exact hnil
    · exfalso
      rw [hpost, List.concat_eq_append, ← List.cons_append, ← List.append_assoc] at hsplit
      have hpre := (List.append_inj' hsplit rfl).1
      have hmem : e ∈ w.issued := by rw [hpre]; simp
      rw [hw.noFailure e hmem] at hfail
      exact Bool.false_ne_true hfail
  errorLog := by rw [hl]; exact hw.errorLog
  errorsFile := by rw [hf]; exact hw.errorsFile

@[simp] theorem assigned_tail (w : World) (err : Option GoError) :
    (w.assigned err).deferred.tail = w.deferred.tail := by
  rw [World.assigned_deferred]
  rcases w.deferred with _ | ⟨⟨tx, e⟩, rest⟩ <;> rfl

theorem failure_of_fault {o : Faults} {w : World} {msg : String} (r : Option Runner)
    (ho : o w.issued.length = some msg) : w.failure o r = some (GoError.other msg) := by
  unfold World.failure
  rw [ho]

@[simp] theorem closed_issued (w : World) (tx : Nat) : (w.closed tx).issued = w.issued := by
  unfold World.closed; split <;> rfl

@[simp] theorem closed_deferred (w : World) (tx : Nat) :
    (w.closed tx).deferred = w.deferred := by
  unfold World.closed; split <;> rfl

@[simp] theorem closed_errorLog (w : World) (tx : Nat) :
    (w.closed tx).errorLog = w.errorLog := by
  unfold World.closed; split <;> rfl

@[simp] theorem closed_errorsFile (w : World) (tx : Nat) :
    (w.closed tx).errorsFile = w.errorsFile := by
  unfold World.closed; split <;> rfl

@[simp] theorem closed_rows (w : World) (tx : Nat) : (w.closed tx).rows = w.rows := by
  unfold World.closed; split <;> rfl

theorem commitTx_eval (o : Faults) (tx : Nat) (w : World) :
    commitTx o tx w =
      match w.failure o (some (Runner.tx tx)) with
      | some e =>
        Res.exited
          (((((w.closed tx).note (Call.Commit tx) (Reply.error e)).assigned (some e)).printed
            ("commit tx:" ++ e.Error)).withTx none)
      | none =>
        Res.next ()
          ((((w.withRows (w.visible (some (Runner.tx tx)))).withTx none).note
            (Call.Commit tx) Reply.ok).assigned none) := by
  unfold commitTx
  simp only [bind_apply, Commit]
  cases w.failure o (some (Runner.tx tx)) <;> rfl

theorem deferredNil_assigned {w : World} (h : ∀ c ∈ w.deferred.tail, c.2 = none) :
    ∀ c ∈ (w.assigned none).deferred, c.2 = none := by
  intro c hc
  rw [World.assigned_deferred] at hc
  rcases hd : w.deferred with _ | ⟨⟨tx, e⟩, rest⟩
  · rw [hd] at hc; simp at hc
  · rw [hd] at hc h
    simp only [List.mem_cons] at hc
    rcases hc with hc | hc
    · rw [hc]
    · exact h c hc

theorem beginTx_keeps {o : Faults} {w : World} (hw : Settled o w) :
    (beginTx o w).Meets (Running o) (Halted o) := by
  rw [beginTx_eval]
  cases ho : o w.issued.length with
  | some msg => exact halted_step hw.running rfl (by simp [ho]) rfl rfl
  | none =>
    have h1 : Running o (w.opened.note Call.Begin Reply.ok) :=
      running_step hw.running rfl (by simp [ho]) rfl rfl rfl rfl
    exact
      { obeys := h1.obeys
        noFailure := h1.noFailure
        tailNil := hw.deferredNil
        errorLog := h1.errorLog
        errorsFile := h1.errorsFile }

theorem checkExists_keeps {o : Faults} (psql : Builder) (record : FullFilingRecord)
    {w : World} (hw : Running o w) :
    (checkExists o psql record w).Meets (Running o) (Halted o) := by
  rw [checkExists_eval]
  cases ho : o w.issued.length with
  | some msg => exact halted_step hw rfl (by simp [ho]) rfl rfl
  | none =>
    simp only []
    split
    · exact running_step hw rfl (by simp [ho]) rfl (assigned_tail _ _) rfl rfl
    · exact running_step hw rfl (by simp [ho]) rfl (assigned_tail _ _) rfl rfl

theorem deleteExisting_keeps {o : Faults} (psql : Builder) (record : FullFilingRecord)
    (b : Bool) {w : World} (hw : Running o w) :
    (deleteExisting o psql record b w).Meets (Running o) (Halted o) := by
  cases b with
  | false => exact hw
  | true =>
    rw [deleteExisting_eval]
    cases ho : o w.issued.length with
    | some msg => exact halted_step hw rfl (by simp [ho]) rfl rfl
    | none => exact running_step hw rfl (by simp [ho]) rfl (assigned_tail _ _) rfl rfl

theorem insertOrganisation_keeps {o : Faults} (psql : Builder) (record : FullFilingRecord)
    {w : World} (hw : Running o w) :
    (insertOrganisation o psql record w).Meets (Running o) (Halted o) := by
  rw [insertOrganisation_eval]
  cases ho : o w.issued.length with
  | some msg => exact halted_step hw rfl (by simp [ho]) rfl rfl
  | none => exact running_step hw rfl (by simp [ho]) rfl (assigned_tail _ _) rfl rfl

theorem insertLocation_keeps {o : Faults} (psql : Builder) (orgID : Int)
    (record : FullFilingRecord) {w : World} (hw : Running o w) :
    (insertLocation o psql orgID record w).Meets (Running o) (Halted o) := by
  rw [insertLocation_eval]
  cases ho : o w.issued.length with
  | some msg => exact halted_step hw rfl (by simp [ho]) rfl rfl
  | none => exact running_step hw rfl (by simp [ho]) rfl (assigned_tail _ _) rfl rfl

theorem insertMetadata_keeps {o : Faults} (psql : Builder) (orgID : Int)
    (record : FullFilingRecord) {w : World} (hw : Running o w) :
    (insertMetadata o psql orgID record w).Meets (Running o) (Halted o) := by
  cases hez : record.Form990EZ with
  | none => rw [insertMetadata_none o psql orgID record hez]; exact hw
  | some ez =>
    rw [insertMetadata_eval o psql orgID record ez hez]
    cases ho : o w.issued.length with
    | some msg => exact halted_step hw rfl (by simp [ho]) rfl rfl
    | none => exact running_step hw rfl (by simp [ho]) rfl (assigned_tail _ _) rfl rfl

theorem insertPersonLocation_keeps {o : Faults} (psql : Builder) (personID : Int)
    (person : People) {w : World} (hw : Running o w) :
    (insertPersonLocation o psql personID person w).Meets (Running o) (Halted o) := by
  cases ha : person.Address with
  | none => rw [insertPersonLocation_none o psql personID person ha]; exact hw
  | some a =>
    rw [insertPersonLocation_eval o psql personID person a ha]
    cases ho : o w.issued.length with
    | some msg => exact halted_step hw rfl (by simp [ho]) rfl rfl
    | none => exact running_step hw rfl (by simp [ho]) rfl rfl rfl rfl

theorem insertPerson_keeps {o : Faults} (psql : Builder) (orgID : Int) (person : People)
    {w : World} (hw : Running o w) :
    (insertPerson o psql orgID person w).Meets (Running o) (Halted o) := by
  rw [insertPerson_eval]
  cases ho : o w.issued.length with
  | some msg => exact halted_step hw rfl (by simp [ho]) rfl rfl
  | none =>
    exact insertPersonLocation_keeps psql _ person
      (running_step hw rfl (by simp [ho]) rfl rfl rfl rfl)

theorem insertPeople_keeps {o : Faults} (psql : Builder) (orgID : Int)
    (people : List People) {w : World} (hw : Running o w) :
    (insertPeople o psql orgID people w).Meets (Running o) (Halted o) := by
  induction people generalizing w with
  | nil => exact hw
  | cons person rest ih =>
    unfold insertPeople
    rw [bind_apply]
    exact meets_andThen (insertPerson_keeps psql orgID person hw) (fun _ w1 h1 => ih h1)

theorem commitTx_keeps {o : Faults} (tx : Nat) {w : World} (hw : Running o w) :
    (commitTx o tx w).Meets (Settled o) (Halted o) := by
  rw [commitTx_eval]
  cases hf : w.failure o (some (Runner.tx tx)) with
  | some e =>
    refine halted_step hw (c := Call.Commit tx) (r := Reply.error e) (by simp) ?_ (by simp)
      (by simp)
    intro msg ho
    rw [failure_of_fault _ ho] at hf
    injection hf with hf
    rw [← hf]
  | none =>
    have hr : Running o ((((w.withRows (w.visible (some (Runner.tx tx)))).withTx none).note
        (Call.Commit tx) Reply.ok).assigned none) := by
      refine running_step hw rfl ?_ rfl (assigned_tail _ _) rfl rfl
      intro msg ho
      rw [failure_of_fault _ ho] at hf
      exact absurd hf (by simp)
    exact ⟨hr, deferredNil_assigned hw.tailNil⟩

theorem importRecord_keeps {o : Faults} (record : FullFilingRecord) {w : World}
    (hw : Settled o w) : (importRecord o record w).Meets (Settled o) (Halted o) := by
  unfold importRecord
  rw [bind_apply]
  refine meets_andThen (beginTx_keeps hw) (fun tx w1 h1 => ?_)
  rw [bind_apply]
  refine meets_andThen (checkExists_keeps _ record h1) (fun b w2 h2 => ?_)
  rw [bind_apply]
  refine meets_andThen (deleteExisting_keeps _ record b h2) (fun _ w3 h3 => ?_)
  rw [bind_apply]
  refine meets_andThen (insertOrganisation_keeps _ record h3) (fun orgID w4 h4 => ?_)
  rw [bind_apply]
  refine meets_andThen (insertLocation_keeps _ orgID record h4) (fun _ w5 h5 => ?_)
  rw [bind_apply]
  refine meets_andThen (insertMetadata_keeps _ orgID record h5) (fun _ w6 h6 => ?_)
  rw [bind_apply]
  refine meets_andThen (insertPeople_keeps _ orgID record.People h6) (fun _ w7 h7 => ?_)
  exact commitTx_keeps tx h7

theorem importLoop_keeps {o : Faults} (records : List FullFilingRecord) {w : World}
    (hw : Settled o w) : (importLoop o records w).Meets (Settled o) (Halted o) := by
  induction records generalizing w with
  | nil => exact hw
  | cons record rest ih =>
    unfold importLoop
    rw [bind_apply]
    exact meets_andThen (importRecord_keeps record hw) (fun _ w1 h1 => ih h1)

/-! ## An accepted import: its calls and its writes -/

theorem insertPeople_next {o : Faults} {psql : Builder} {orgID : Int}
    (people : List People) {w w2 : World}
    (h : insertPeople o psql orgID people w = Res.next () w2) :
    w2.issued = w.issued ++ peopleCalls psql orgID (w.seq "website.people") people ∧
    w2.rows = (peopleWrites psql orgID (w.seq "website.people") people).foldl applyWrite
      w.rows ∧
    w2.tx = w.tx := by
  induction people generalizing w with
  | nil =>
    simp only [insertPeople, pure_apply, Res.next.injEq, true_and] at h
    subst h
    simp [peopleCalls, peopleWrites]
  | cons person rest ih =>
    unfold insertPeople at h
    rw [bind_apply] at h
    obtain ⟨_, w1, h1, h2⟩ := andThen_eq_next h
    rw [insertPerson_eval] at h1
    cases ho : o w.issued.length with
    | some msg => rw [ho] at h1; simp at h1
    | none =>
      rw [ho] at h1
      simp only [] at h1
      cases ha : person.Address with
      | none =>
        rw [insertPersonLocation_none o psql _ person ha] at h1
        simp only [Res.next.injEq, true_and] at h1
        subst h1
        obtain ⟨hi, hr, ht⟩ := ih h2
        refine ⟨?_, ?_, ?_⟩
        · rw [hi]; simp [peopleCalls, ha]
        · rw [hr]; simp [peopleWrites, ha, rowOf]
        · rw [ht]; rfl
      | some a =>
        rw [insertPersonLocation_eval o psql _ person a ha] at h1
        simp only [World.note_issued, World.withSeq_issued, World.withRows_issued,
          List.length_append, List.length_singleton] at h1
        cases ho2 : o (w.issued.length + 1) with
        | some msg => rw [ho2] at h1; simp at h1
        | none =>
          rw [ho2] at h1
          simp only [Res.next.injEq, true_and] at h1
          subst h1
          obtain ⟨hi, hr, ht⟩ := ih h2
          refine ⟨?_, ?_, ?_⟩
          · rw [hi]; simp [peopleCalls, ha]
          · rw [hr]; simp [peopleWrites, ha, rowOf]
          · rw [ht]; rfl

theorem Did.trans {w w1 w2 : World} {c1 c2 : List Event} {ws1 ws2 : List Write}
    (h1 : Did w w1 c1 ws1) (h2 : Did w1 w2 c2 ws2) : Did w w2 (c1 ++ c2) (ws1 ++ ws2) where
  issued := by rw [h2.issued, h1.issued, List.append_assoc]
  rows := by rw [h2.rows, h1.rows, List.foldl_append]
  tx := by rw [h2.tx, h1.tx]

theorem beginTx_next {o : Faults} {w w1 : World} {tx : Nat}
    (h : beginTx o w = Res.next tx w1) :
    tx = w.txCount ∧ w1.issued = w.issued ++ [⟨Call.Begin, Reply.ok⟩] ∧ w1.rows = w.rows ∧
      w1.seq = w.seq ∧ w1.tx = some (w.txCount, []) := by
  rw [beginTx_eval] at h
  cases ho : o w.issued.length with
  | some msg => rw [ho] at h; simp at h
  | none =>
    rw [ho] at h
    simp only [Res.next.injEq] at h
    obtain ⟨h1, h2⟩ := h
    subst h1 h2
    exact ⟨rfl, rfl, rfl, rfl, rfl⟩

theorem checkExists_next {o : Faults} {psql : Builder} {record : FullFilingRecord}
    {w w2 : World} {b : Bool} (h : checkExists o psql record w = Res.next b w2) :
    b = existsIn w.rows record ∧
      Did w w2
        [⟨Call.QueryRow (existsQuery psql record),
          if b then Reply.value 1 else Reply.error GoError.ErrNoRows⟩] [] ∧
      w2.seq = w.seq := by
  rw [checkExists_eval] at h
  cases ho : o w.issued.length with
  | some msg => rw [ho] at h; simp at h
  | none =>
    rw [ho] at h
    simp only [] at h
    unfold existsIn keyOf
    split at h
    · rename_i hany
      simp only [Res.next.injEq] at h
      obtain ⟨h1, h2⟩ := h
      subst h1 h2
      exact ⟨hany.symm, ⟨rfl, rfl, rfl⟩, rfl⟩
    · rename_i hany
      simp only [Res.next.injEq] at h
      obtain ⟨h1, h2⟩ := h
      subst h1 h2
      exact ⟨(Bool.eq_false_iff.mpr hany).symm, ⟨rfl, rfl, rfl⟩, rfl⟩

theorem deleteExisting_next {o : Faults} {psql : Builder} {record : FullFilingRecord}
    {w w2 : World} {b b2 : Bool} (h : deleteExisting o psql record b w = Res.next b2 w2) :
    Did w w2 (if b then [⟨Call.Exec (deleteStmt psql record), Reply.ok⟩] else [])
        (if b then [Write.delete "website.organisations" (keyOf record)] else []) ∧
      w2.seq = w.seq := by
  cases b with
  | false =>
    rw [deleteExisting_false] at h
    simp only [Res.next.injEq] at h
    obtain ⟨_, h2⟩ := h
    subst h2
    exact ⟨⟨by simp, rfl, rfl⟩, rfl⟩
  | true =>
    rw [deleteExisting_eval] at h
    cases ho : o w.issued.length with
    | some msg => rw [ho] at h; simp at h
    | none =>
      rw [ho] at h
      simp only [Res.next.injEq] at h
      obtain ⟨_, h2⟩ := h
      subst h2
      exact ⟨⟨rfl, rfl, rfl⟩, rfl⟩

theorem insertOrganisation_next {o : Faults} {psql : Builder} {record : FullFilingRecord}
    {w w2 : World} {orgID : Int} (h : insertOrganisation o psql record w = Res.next orgID w2) :
    orgID = w.seq "website.organisations" ∧
      Did w w2 [⟨Call.QueryRow (orgQuery psql record), Reply.value orgID⟩]
        [Write.insert "website.organisations" (rowOf (orgQuery psql record) (some orgID))] ∧
      w2.seq "website.people" = w.seq "website.people" := by
  rw [insertOrganisation_eval] at h
  cases ho : o w.issued.length with
  | some msg => rw [ho] at h; simp at h
  | none =>
    rw [ho] at h
    simp only [Res.next.injEq] at h
    obtain ⟨h1, h2⟩ := h
    subst h1 h2
    exact ⟨rfl, ⟨rfl, rfl, rfl⟩, by simp⟩

theorem insertLocation_next {o : Faults} {psql : Builder} {record : FullFilingRecord}
    {w w2 : World} {orgID : Int} (h : insertLocation o psql orgID record w = Res.next () w2) :
    Did w w2 [⟨Call.Exec (locationStmt psql orgID record), Reply.ok⟩]
        [Write.insert "website.organisation_locations"
          (rowOf (locationStmt psql orgID record) none)] ∧
      w2.seq = w.seq := by
  rw [insertLocation_eval] at h
  cases ho : o w.issued.length with
  | some msg => rw [ho] at h; simp at h
  | none =>
    rw [ho] at h
    simp only [Res.next.injEq, true_and] at h
    subst h
    exact ⟨⟨rfl, rfl, rfl⟩, rfl⟩

theorem insertMetadata_next {o : Faults} {psql : Builder} {record : FullFilingRecord}
    {w w2 : World} {orgID : Int} (h : insertMetadata o psql orgID record w = Res.next () w2) :
    Did w w2
        (match record.Form990EZ with
          | some ez => [⟨Call.Exec (metadataStmt psql orgID ez), Reply.ok⟩]
          | none => [])
        (match record.Form990EZ with
          | some ez =>
            [Write.insert "website.organisation_metadata"
              (rowOf (metadataStmt psql orgID ez) none)]
          | none => []) ∧
      w2.seq = w.seq := by
  cases hez : record.Form990EZ with
  | none =>
    rw [insertMetadata_none o psql orgID record hez] at h
    simp only [Res.next.injEq, true_and] at h
    subst h
    exact ⟨⟨by simp, rfl, rfl⟩, rfl⟩
  | some ez =>
    rw [insertMetadata_eval o psql orgID record ez hez] at h
    cases ho : o w.issued.length with
    | some msg => rw [ho] at h; simp at h
    | none =>
      rw [ho] at h
      simp only [Res.next.injEq, true_and] at h
      subst h
      exact ⟨⟨rfl, rfl, rfl⟩, rfl⟩

theorem commitTx_next {o : Faults} {tx : Nat} {w w2 : World} (htx : w.tx = some (tx, []))
    (h : commitTx o tx w = Res.next () w2) :
    w2.issued = w.issued ++ [⟨Call.Commit tx, Reply.ok⟩] ∧ w2.rows = w.rows ∧
      w2.tx = none := by
  rw [commitTx_eval] at h
  cases hf : w.failure o (some (Runner.tx tx)) with
  | some e => rw [hf] at h; simp at h
  | none =>
    rw [hf] at h
    simp only [Res.next.injEq, true_and] at h
    subst h
    refine ⟨rfl, ?_, rfl⟩
    simp [World.visible, htx]

/-- The calls and the visible rows after an import the database accepted. -/
theorem importRecord_next {o : Faults} {record : FullFilingRecord} {w w2 : World}
    (h : importRecord o record w = Res.next () w2) :
    w2.issued = w.issued ++
        recordCalls record w.txCount (existsIn w.rows record)
          (w.seq "website.organisations") (w.seq "website.people") ∧
      w2.rows =
        (recordWrites record w.txCount (existsIn w.rows record)
          (w.seq "website.organisations") (w.seq "website.people")).foldl applyWrite w.rows := by
  unfold importRecord at h
  rw [bind_apply] at h
  obtain ⟨tx, w1, h1, h⟩ := andThen_eq_next h
  obtain ⟨htx, hi1, hr1, hs1, ht1⟩ := beginTx_next h1
  subst htx
  rw [bind_apply] at h
  obtain ⟨b, w3, h3, h⟩ := andThen_eq_next h
  obtain ⟨hb, d3, hs3⟩ := checkExists_next h3
  rw [bind_apply] at h
  obtain ⟨b4, w4, h4, h⟩ := andThen_eq_next h
  obtain ⟨d4, hs4⟩ := deleteExisting_next h4
  rw [bind_apply] at h
  obtain ⟨orgID, w5, h5, h⟩ := andThen_eq_next h
  obtain ⟨horg, d5, hs5⟩ := insertOrganisation_next h5
  rw [bind_apply] at h
  obtain ⟨_, w6, h6, h⟩ := andThen_eq_next h
  obtain ⟨d6, hs6⟩ := insertLocation_next h6
  rw [bind_apply] at h
  obtain ⟨_, w7, h7, h⟩ := andThen_eq_next h
  obtain ⟨d7, hs7⟩ := insertMetadata_next h7
  rw [bind_apply] at h
  obtain ⟨_, w8, h8, h⟩ := andThen_eq_next h
  obtain ⟨hi8, hr8, ht8⟩ := insertPeople_next _ h8
  have d8 : Did w7 w8 _ _ := ⟨hi8, hr8, ht8⟩
  have hseqO : orgID = w.seq "website.organisations" := by
    rw [horg, hs4, hs3, hs1]
  have hseqP : w7.seq "website.people" = w.seq "website.people" := by
    rw [hs7, hs6, hs5, hs4, hs3, hs1]
  have hex : b = existsIn w.rows record := by rw [hb, hr1]
  have dall := (((d3.trans d4).trans d5).trans d6).trans (d7.trans d8)
  have htx8 : w8.tx = some (w.txCount, []) := by rw [dall.tx, ht1]
  obtain ⟨hi9, hr9, _⟩ := commitTx_next htx8 h
  rw [hseqP] at dall
  subst hseqO hex
  constructor
  · rw [hi9, dall.issued, hi1]
    simp [recordCalls, insertCalls]
  · rw [hr9, dall.rows, hr1]
    simp [recordWrites]

/-! ## The end of `main` -/

theorem importLoop_cons (o : Faults) (record : FullFilingRecord)
    (rest : List FullFilingRecord) (w : World) :
    importLoop o (record :: rest) w =
      (importRecord o record w).andThen (fun _ => importLoop o rest) := rfl

theorem importLoop_append (o : Faults) (l1 l2 : List FullFilingRecord) (w : World) :
    importLoop o (l1 ++ l2) w = (importLoop o l1 w).andThen (fun _ => importLoop o l2) := by
  induction l1 generalizing w with
  | nil => rfl
  | cons record rest ih =>
    rw [List.cons_append, importLoop_cons, importLoop_cons]
    cases importRecord o record w with
    | next u w1 => simp only [andThen_next]; exact ih w1
    | exited w1 => rfl

theorem runClosures_nil (o : Faults) (closures : List (Nat × Option GoError)) (w : World)
    (h : ∀ c ∈ closures, c.2 = none) : runClosures o closures w = Res.next () w := by
  induction closures with
  | nil => rfl
  | cons c rest ih =>
    unfold runClosures
    have hc : c.2 = none := h c (List.mem_cons_self _ _)
    have hrun : runClosure o c w = Res.next () w := by
      unfold runClosure
      rw [hc]
      rfl
    rw [bind_apply, hrun, andThen_next]
    exact ih (fun d hd => h d (List.mem_cons_of_mem _ hd))

theorem flushErrorLog_empty (createErr : Option String) (w : World) (h : w.errorLog = []) :
    flushErrorLog createErr w =
      Res.next () (w.printed "✅ All records inserted successfully — no errors.") := by
  unfold flushErrorLog
  rw [h]
  rfl

theorem start_settled (o : Faults) (rows : String → List Row) (seq : String → Int) :
    Settled o (World.start rows seq) where
  running :=
    { obeys := by
        intro k msg ev _ hev
        simp [World.start] at hev
      noFailure := by
        intro ev hev
        simp [World.start] at hev
      tailNil := by
        intro c hc
        simp [World.start] at hc
      errorLog := rfl
      errorsFile := rfl }
  deferredNil := by
    intro c hc
    simp [World.start] at hc

/-- The whole run in terms of its loop: when the loop comes to its end, `main`
prints the success line and returns; no deferred closure rolls back. -/
theorem main_eval (o : Faults) (createErr : Option String)
    (records : List FullFilingRecord) (rows : String → List Row) (seq : String → Int) :
    main o createErr records rows seq =
      match importLoop o records (World.start rows seq) with
      | Res.next _ w1 =>
        Res.next ()
          (w1.printed "✅ All records inserted successfully — no errors.").undeferred
      | Res.exited w1 => Res.exited w1 := by
  have hk := importLoop_keeps records (start_settled o rows seq)
  unfold main
  rw [bind_apply]
  cases hl : importLoop o records (World.start rows seq) with
  | exited w1 => rfl
  | next u w1 =>
    rw [hl] at hk
    have hs : Settled o w1 := hk
    rw [andThen_next, bind_apply, flushErrorLog_empty createErr w1 hs.running.errorLog,
      andThen_next]
    unfold runDeferred
    exact runClosures_nil o _ _ hs.deferredNil

/-- The state a run ends in: it went on to the end with no failed call, or it
exited with only its last call failed. -/
theorem main_meets (o : Faults) (createErr : Option String)
    (records : List FullFilingRecord) (rows : String → List Row) (seq : String → Int) :
    (main o createErr records rows seq).Meets (Settled o) (Halted o) := by
  have hk := importLoop_keeps records (start_settled o rows seq)
  rw [main_eval]
  cases hl : importLoop o records (World.start rows seq) with
  | exited w1 => rw [hl] at hk; exact hk
  | next u w1 =>
    rw [hl] at hk
    have hs : Settled o w1 := hk
    exact
      { running :=
          { obeys := hs.running.obeys
            noFailure := hs.running.noFailure
            tailNil := by
              intro c hc
              simp at hc
            errorLog := hs.running.errorLog
            errorsFile := hs.running.errorsFile }
        deferredNil := by
          intro c hc
          simp at hc }

/-! ## The rows after an accepted import -/

theorem foldl_applyWrite_other (ws : List Write) (rows : String → List Row) (t : String)
    (h : ∀ wr ∈ ws, wr.table ≠ t) : ws.foldl applyWrite rows t = rows t := by
  induction ws generalizing rows with
  | nil => rfl
  | cons wr rest ih =>
    rw [List.foldl_cons, ih _ (fun x hx => h x (List.mem_cons_of_mem _ hx))]
    have hwr := h wr (List.mem_cons_self _ _)
    cases wr with
    | insert t2 r =>
      simp only [Write.table] at hwr
      simp [applyWrite, Ne.symm hwr]
    | delete t2 c =>
      simp only [Write.table] at hwr
      simp [applyWrite, Ne.symm hwr]

theorem foldl_applyWrite_prefix (ws : List Write) (rows : String → List Row) (t : String)
    (h : ∀ wr ∈ ws, wr.isInsert = true ∨ wr.table ≠ t) :
    rows t <+: ws.foldl applyWrite rows t := by
  induction ws generalizing rows with
  | nil => exact List.prefix_refl _
  | cons wr rest ih =>
    rw [List.foldl_cons]
    refine List.IsPrefix.trans ?_ (ih _ (fun x hx => h x (List.mem_cons_of_mem _ hx)))
    have hwr := h wr (List.mem_cons_self _ _)
    cases wr with
    | insert t2 r =>
      by_cases ht : t = t2
      · simp [applyWrite, ht]
      · simp [applyWrite, ht]
    | delete t2 c =>
      rcases hwr with hwr | hwr
      · simp [Write.isInsert] at hwr
      · simp only [Write.table] at hwr
        simp [applyWrite, Ne.symm hwr]

theorem peopleWrites_table (psql : Builder) (orgID personID : Int) (people : List People) :
    ∀ wr ∈ peopleWrites psql orgID personID people,
      wr.isInsert = true ∧
        (wr.table = "website.people" ∨ wr.table = "website.people_locations") := by
  induction people generalizing personID with
  | nil => intro wr hwr; simp [peopleWrites] at hwr
  | cons person rest ih =>
    intro wr hwr
    unfold peopleWrites at hwr
    rw [List.mem_cons, List.mem_append] at hwr
    rcases hwr with hwr | hwr | hwr
    · rw [hwr]; exact ⟨rfl, Or.inl rfl⟩
    · cases ha : person.Address with
      | none => rw [ha] at hwr; simp at hwr
      | some a =>
        rw [ha] at hwr
        simp only [List.mem_singleton] at hwr
        rw [hwr]; exact ⟨rfl, Or.inr rfl⟩
    · exact ih _ wr hwr

theorem matchesEq_keyOf (record : FullFilingRecord) (r : Row) :
    matchesEq (keyOf record) r = true ↔
      orgKey r = (some (Value.str record.EIN), some (Value.str record.DLN)) := by
  simp [matchesEq, keyOf, orgKey, Prod.ext_iff]

theorem orgKey_rowOf_orgQuery (psql : Builder) (record : FullFilingRecord) (id : Int) :
    orgKey (rowOf (orgQuery psql record) (some id)) =
      (some (Value.str record.EIN), some (Value.str record.DLN)) := by
  unfold orgQuery
  cases record.Form990EZ <;>
    simp [orgKey, rowOf, orgQueryEZ, orgQueryPlain, Builder.Insert, Stmt.Columns, Stmt.Values,
      Stmt.Suffix, Stmt.RunWith, List.lookup]

theorem name_rowOf_orgQuery (psql : Builder) (record : FullFilingRecord) (id : Int) :
    (rowOf (orgQuery psql record) (some id)).lookup "name" = some (Value.str record.Name) ∧
      (rowOf (orgQuery psql record) (some id)).lookup "xml_batch_id" =
        some (Value.str record.XMLBatchID) := by
  unfold orgQuery
  cases record.Form990EZ <;>
    simp [rowOf, orgQueryEZ, orgQueryPlain, Builder.Insert, Stmt.Columns, Stmt.Values,
      Stmt.Suffix, Stmt.RunWith, List.lookup]

/-- The organisation rows after an accepted import: the rows with another key,
then the new row. -/
theorem importRecord_orgRows {o : Faults} {record : FullFilingRecord} {w w2 : World}
    (h : importRecord o record w = Res.next () w2) :
    w2.rows "website.organisations" =
      (w.rows "website.organisations").filter (fun r => !matchesEq (keyOf record) r) ++
        [rowOf (orgQuery (StatementBuilder.RunWith (Runner.tx w.txCount)) record)
          (some (w.seq "website.organisations"))] := by
  obtain ⟨_, hr⟩ := importRecord_next h
  rw [hr]
  unfold recordWrites
  rw [List.foldl_append, List.foldl_append, List.foldl_append]
  rw [foldl_applyWrite_other _ _ "website.organisations" (by
    intro wr hwr
    rcases (peopleWrites_table _ _ _ _ wr hwr).2 with ht | ht <;> rw [ht] <;> decide)]
  rw [foldl_applyWrite_other _ _ "website.organisations" (by
    intro wr hwr
    cases hez : record.Form990EZ with
    | none => rw [hez] at hwr; simp at hwr
    | some ez =>
      rw [hez] at hwr
      simp only [List.mem_singleton] at hwr
      rw [hwr]
      simp [Write.table])]
  cases hex : existsIn w.rows record with
  | true => simp [applyWrite]
  | false =>
    have hall : (w.rows "website.organisations").filter
        (fun r => !matchesEq (keyOf record) r) = w.rows "website.organisations" := by
      rw [List.filter_eq_self]
      intro r hr
      unfold existsIn at hex
      rw [List.any_eq_false] at hex
      simpa using hex r hr
    simp [applyWrite, hall]

/-! ## The calls of an accepted import, read -/

theorem callsSince_eq {w w2 : World} {calls : List Event}
    (h : w2.issued = w.issued ++ calls) : callsSince w w2 = calls := by
  unfold callsSince
  rw [h, List.drop_left]

theorem peopleCalls_isInsert (psql : Builder) (orgID personID : Int) (people : List People) :
    (peopleCalls psql orgID personID people).filter Event.isInsert =
      peopleCalls psql orgID personID people := by
  rw [List.filter_eq_self]
  induction people generalizing personID with
  | nil => intro ev hev; simp [peopleCalls] at hev
  | cons person rest ih =>
    intro ev hev
    unfold peopleCalls at hev
    rw [List.mem_cons, List.mem_append] at hev
    rcases hev with hev | hev | hev
    · rw [hev]; rfl
    · cases ha : person.Address with
      | none => rw [ha] at hev; simp at hev
      | some a =>
        rw [ha] at hev
        simp only [List.mem_singleton] at hev
        rw [hev]; rfl
    · exact ih _ ev hev

theorem peopleCalls_people (psql : Builder) (orgID personID : Int) (people : List People) :
    ((peopleCalls psql orgID personID people).filter
      (Event.insertsInto "website.people")).length = people.length := by
  induction people generalizing personID with
  | nil => rfl
  | cons person rest ih =>
    unfold peopleCalls
    cases ha : person.Address with
    | none =>
      simp only [List.nil_append]
      rw [List.filter_cons_of_pos (by rfl), List.length_cons, ih, List.length_cons]
    | some a =>
      simp only [List.singleton_append]
      rw [List.filter_cons_of_pos (by rfl),
        List.filter_cons_of_neg (by simp [Event.insertsInto, Call.stmt]),
        List.length_cons, ih, List.length_cons]

theorem peopleCalls_addresses (psql : Builder) (orgID personID : Int)
    (people : List People) :
    ((peopleCalls psql orgID personID people).filter
      (Event.insertsInto "website.people_locations")).length = addressCount people := by
  induction people generalizing personID with
  | nil => rfl
  | cons person rest ih =>
    unfold peopleCalls addressCount
    cases ha : person.Address with
    | none =>
      simp only [List.nil_append]
      rw [List.filter_cons_of_neg (by simp [Event.insertsInto, Call.stmt]), ih,
        List.filter_cons_of_neg (by simp [ha])]
      rfl
    | some a =>
      simp only [List.singleton_append]
      rw [List.filter_cons_of_neg (by simp [Event.insertsInto, Call.stmt]),
        List.filter_cons_of_pos (by rfl),
        List.length_cons, ih, List.filter_cons_of_pos (by simp [ha]), List.length_cons]
      rfl

theorem peopleCalls_other (psql : Builder) (orgID personID : Int) (people : List People)
    (t : String) (h1 : t ≠ "website.people") (h2 : t ≠ "website.people_locations") :
    (peopleCalls psql orgID personID people).filter (Event.insertsInto t) = [] := by
  rw [List.filter_eq_nil_iff]
  induction people generalizing personID with
  | nil => intro ev hev; simp [peopleCalls] at hev
  | cons person rest ih =>
    intro ev hev
    unfold peopleCalls at hev
    rw [List.mem_cons, List.mem_append] at hev
    rcases hev with hev | hev | hev
    · rw [hev]
      simp [Event.insertsInto, Call.stmt, Ne.symm h1]
    · cases ha : person.Address with
      | none => rw [ha] at hev; simp at hev
      | some a =>
        rw [ha] at hev
        simp only [List.mem_singleton] at hev
        rw [hev]
        simp [Event.insertsInto, Call.stmt, Ne.symm h2]
    · exact ih _ ev hev

theorem peopleCalls_orgID (psql : Builder) (orgID personID : Int) (people : List People) :
    ∀ ev ∈ peopleCalls psql orgID personID people,
      ev.insertsInto "website.people" = true → ev.firstValue = some (Value.int orgID) := by
  induction people generalizing personID with
  | nil => intro ev hev; simp [peopleCalls] at hev
  | cons person rest ih =>
    intro ev hev hins
    unfold peopleCalls at hev
    rw [List.mem_cons, List.mem_append] at hev
    rcases hev with hev | hev | hev
    · rw [hev]; rfl
    · cases ha : person.Address with
      | none => rw [ha] at hev; simp at hev
      | some a =>
        rw [ha] at hev
        simp only [List.mem_singleton] at hev
        rw [hev] at hins
        exact absurd hins (by simp [Event.insertsInto, Call.stmt])
    · exact ih _ ev hev hins

theorem peopleCalls_chain (psql : Builder) (orgID personID : Int) (people : List People)
    (prev : Event) : List.Chain Linked prev (peopleCalls psql orgID personID people) := by
  induction people generalizing personID prev with
  | nil => exact List.Chain.nil
  | cons person rest ih =>
    unfold peopleCalls
    refine List.Chain.cons (fun h => absurd h (by simp [Event.insertsInto, Call.stmt])) ?_
    cases ha : person.Address with
    | none => exact ih _ _
    | some a =>
      simp only [List.singleton_append]
      exact List.Chain.cons (fun _ => ⟨rfl, personID, rfl, rfl⟩) (ih _ _)

theorem next_of_not_exited {r : Res Unit} (h : r.hasExited = false) :
    r = Res.next () r.world := by
  cases r with
  | next u w => rfl
  | exited w => simp at h

theorem recordCalls_isInsert (record : FullFilingRecord) (tx : Nat) (existed : Bool)
    (orgID personID : Int) :
    (recordCalls record tx existed orgID personID).filter Event.isInsert =
      insertCalls (StatementBuilder.RunWith (Runner.tx tx)) record orgID personID := by
  have hpeople := peopleCalls_isInsert (StatementBuilder.RunWith (Runner.tx tx)) orgID personID
    record.People
  unfold recordCalls insertCalls
  cases existed <;> cases hez : record.Form990EZ <;>
    simp [List.filter_append, List.filter_cons, Event.isInsert, Call.stmt, hpeople]

theorem recordCalls_insertsInto (record : FullFilingRecord) (tx : Nat) (existed : Bool)
    (orgID personID : Int) (t : String) :
    (recordCalls record tx existed orgID personID).filter (Event.insertsInto t) =
      (insertCalls (StatementBuilder.RunWith (Runner.tx tx)) record orgID personID).filter
        (Event.insertsInto t) := by
  unfold recordCalls
  cases existed <;>
    simp [List.filter_append, List.filter_cons, Event.insertsInto, Call.stmt]

theorem recordCalls_isDelete (record : FullFilingRecord) (tx : Nat) (existed : Bool)
    (orgID personID : Int) :
    (recordCalls record tx existed orgID personID).filter Event.isDelete =
      if existed then
        [⟨Call.Exec (deleteStmt (StatementBuilder.RunWith (Runner.tx tx)) record), Reply.ok⟩]
      else [] := by
  have hpeople : (peopleCalls (StatementBuilder.RunWith (Runner.tx tx)) orgID personID
      record.People).filter Event.isDelete = [] := by
    rw [List.filter_eq_nil_iff]
    intro ev hev hdel
    have hins : ev.isInsert = true := by
      have hmem : ev ∈ (peopleCalls (StatementBuilder.RunWith (Runner.tx tx)) orgID personID
          record.People).filter Event.isInsert := by
        rw [peopleCalls_isInsert]; exact hev
      exact (List.mem_filter.mp hmem).2
    unfold Event.isInsert at hins
    unfold Event.isDelete at hdel
    cases hs : ev.call.stmt with
    | none => rw [hs] at hins; simp at hins
    | some s =>
      rw [hs] at hins hdel
      simp only [decide_eq_true_eq] at hins hdel
      rw [hins] at hdel
      exact absurd hdel (by decide)
  unfold recordCalls insertCalls
  cases existed <;> cases hez : record.Form990EZ <;>
    simp [List.filter_append, List.filter_cons, Event.isDelete, Call.stmt, hpeople]

theorem insertCalls_organisations (psql : Builder) (record : FullFilingRecord)
    (orgID personID : Int) :
    (insertCalls psql record orgID personID).filter
        (Event.insertsInto "website.organisations") =
      [⟨Call.QueryRow (orgQuery psql record), Reply.value orgID⟩] := by
  have hpeople := peopleCalls_other psql orgID personID record.People
    "website.organisations" (by decide) (by decide)
  unfold insertCalls
  cases hez : record.Form990EZ <;>
    simp [List.filter_append, List.filter_cons, Event.insertsInto, Call.stmt, hpeople]

theorem insertCalls_locations (psql : Builder) (record : FullFilingRecord)
    (orgID personID : Int) :
    (insertCalls psql record orgID personID).filter
        (Event.insertsInto "website.organisation_locations") =
      [⟨Call.Exec (locationStmt psql orgID record), Reply.ok⟩] := by
  have hpeople := peopleCalls_other psql orgID personID record.People
    "website.organisation_locations" (by decide) (by decide)
  unfold insertCalls
  cases hez : record.Form990EZ <;>
    simp [List.filter_append, List.filter_cons, Event.insertsInto, Call.stmt, hpeople]

theorem insertCalls_metadata (psql : Builder) (record : FullFilingRecord)
    (orgID personID : Int) :
    (insertCalls psql record orgID personID).filter
        (Event.insertsInto "website.organisation_metadata") =
      match record.Form990EZ with
      | some ez => [⟨Call.Exec (metadataStmt psql orgID ez), Reply.ok⟩]
      | none => [] := by
  have hpeople := peopleCalls_other psql orgID personID record.People
    "website.organisation_metadata" (by decide) (by decide)
  unfold insertCalls
  cases hez : record.Form990EZ <;>
    simp [List.filter_append, List.filter_cons, Event.insertsInto, Call.stmt, hpeople]

theorem insertCalls_people (psql : Builder) (record : FullFilingRecord)
    (orgID personID : Int) :
    ((insertCalls psql record orgID personID).filter
        (Event.insertsInto "website.people")).length = record.People.length := by
  have hpeople := peopleCalls_people psql orgID personID record.People
  unfold insertCalls
  cases hez : record.Form990EZ <;>
    simp [List.filter_append, List.filter_cons, Event.insertsInto, Call.stmt] <;>
    simpa [Event.insertsInto, Call.stmt] using hpeople

theorem insertCalls_addresses (psql : Builder) (record : FullFilingRecord)
    (orgID personID : Int) :
    ((insertCalls psql record orgID personID).filter
        (Event.insertsInto "website.people_locations")).length =
      addressCount record.People := by
  have hpeople := peopleCalls_addresses psql orgID personID record.People
  unfold insertCalls
  cases hez : record.Form990EZ <;>
    simp [List.filter_append, List.filter_cons, Event.insertsInto, Call.stmt] <;>
    simpa [Event.insertsInto, Call.stmt] using hpeople

theorem insertCalls_orgID (psql : Builder) (record : FullFilingRecord)
    (orgID personID : Int) :
    ∀ ev ∈ insertCalls psql record orgID personID,
      (ev.insertsInto "website.organisation_locations" = true ∨
        ev.insertsInto "website.organisation_metadata" = true ∨
        ev.insertsInto "website.people" = true) →
      ev.firstValue = some (Value.int orgID) := by
  intro ev hev hins
  unfold insertCalls at hev
  rw [List.mem_append, List.mem_append] at hev
  rcases hev with (hev | hev) | hev
  · simp only [List.mem_cons, List.mem_singleton, List.not_mem_nil, or_false] at hev
    rcases hev with hev | hev
    · rw [hev] at hins
      simp [Event.insertsInto, Call.stmt] at hins
    · rw [hev]; rfl
  · cases hez : record.Form990EZ with
    | none => rw [hez] at hev; simp at hev
    | some ez =>
      rw [hez] at hev
      simp only [List.mem_singleton] at hev
      rw [hev]; rfl
  · rcases hins with hins | hins | hins
    · have := peopleCalls_other psql orgID personID record.People
        "website.organisation_locations" (by decide) (by decide)
      rw [List.filter_eq_nil_iff] at this
      exact absurd hins (this ev hev)
    · have := peopleCalls_other psql orgID personID record.People
        "website.organisation_metadata" (by decide) (by decide)
      rw [List.filter_eq_nil_iff] at this
      exact absurd hins (this ev hev)
    · exact peopleCalls_orgID psql orgID personID record.People ev hev hins

theorem insertCalls_chain (psql : Builder) (record : FullFilingRecord)
    (orgID personID : Int) :
    List.Chain' Linked (insertCalls psql record orgID personID) := by
  unfold insertCalls
  have hnot : ∀ (prev : Event) (s : Stmt) (r : Reply),
      s.table ≠ "website.people_locations" → Linked prev ⟨Call.Exec s, r⟩ := by
    intro prev s r hs hl
    simp [Event.insertsInto, Call.stmt, hs] at hl
  have hloc : (locationStmt psql orgID record).table ≠ "website.people_locations" := by
    rw [locationStmt_table]; decide
  cases hez : record.Form990EZ with
  | none =>
    exact List.Chain.cons (hnot _ _ _ hloc) (peopleCalls_chain psql orgID personID _ _)
  | some ez =>
    have hmeta : (metadataStmt psql orgID ez).table ≠ "website.people_locations" := by
      rw [metadataStmt_table]; decide
    exact List.Chain.cons (hnot _ _ _ hloc)
      (List.Chain.cons (hnot _ _ _ hmeta) (peopleCalls_chain psql orgID personID _ _))

/-! ## A database that accepts every call -/

theorem checkExists_accepted {o : Faults} (ho : ∀ k, o k = none) (psql : Builder)
    (record : FullFilingRecord) {w : World} {tx : Nat} (htx : w.tx = some (tx, [])) :
    (checkExists o psql record w).Meets (fun w2 => w2.tx = some (tx, [])) (fun _ => False) := by
  rw [checkExists_eval, ho]
  simp only []
  split <;> exact htx

theorem deleteExisting_accepted {o : Faults} (ho : ∀ k, o k = none) (psql : Builder)
    (record : FullFilingRecord) (b : Bool) {w : World} {tx : Nat}
    (htx : w.tx = some (tx, [])) :
    (deleteExisting o psql record b w).Meets (fun w2 => w2.tx = some (tx, []))
      (fun _ => False) := by
  cases b with
  | false => exact htx
  | true => rw [deleteExisting_eval, ho]; exact htx

theorem insertOrganisation_accepted {o : Faults} (ho : ∀ k, o k = none) (psql : Builder)
    (record : FullFilingRecord) {w : World} {tx : Nat} (htx : w.tx = some (tx, [])) :
    (insertOrganisation o psql record w).Meets (fun w2 => w2.tx = some (tx, []))
      (fun _ => False) := by
  rw [insertOrganisation_eval, ho]; exact htx

theorem insertLocation_accepted {o : Faults} (ho : ∀ k, o k = none) (psql : Builder)
    (orgID : Int) (record : FullFilingRecord) {w : World} {tx : Nat}
    (htx : w.tx = some (tx, [])) :
    (insertLocation o psql orgID record w).Meets (fun w2 => w2.tx = some (tx, []))
      (fun _ => False) := by
  rw [insertLocation_eval, ho]; exact htx

theorem insertMetadata_accepted {o : Faults} (ho : ∀ k, o k = none) (psql : Builder)
    (orgID : Int) (record : FullFilingRecord) {w : World} {tx : Nat}
    (htx : w.tx = some (tx, [])) :
    (insertMetadata o psql orgID record w).Meets (fun w2 => w2.tx = some (tx, []))
      (fun _ => False) := by
  cases hez : record.Form990EZ with
  | none => rw [insertMetadata_none o psql orgID record hez]; exact htx
  | some ez => rw [insertMetadata_eval o psql orgID record ez hez, ho]; exact htx

theorem insertPeople_accepted {o : Faults} (ho : ∀ k, o k = none) (psql : Builder)
    (orgID : Int) (people : List People) {w : World} {tx : Nat}
    (htx : w.tx = some (tx, [])) :
    (insertPeople o psql orgID people w).Meets (fun w2 => w2.tx = some (tx, []))
      (fun _ => False) := by
  induction people generalizing w with
  | nil => exact htx
  | cons person rest ih =>
    unfold insertPeople
    rw [bind_apply]
    refine meets_andThen (Q := fun w2 => w2.tx = some (tx, [])) ?_ (fun _ w1 h1 => ih h1)
    rw [insertPerson_eval, ho]
    cases ha : person.Address with
    | none => rw [insertPersonLocation_none o psql _ person ha]; exact htx
    | some a => rw [insertPersonLocation_eval o psql _ person a ha, ho]; exact htx

theorem commitTx_accepted {o : Faults} (ho : ∀ k, o k = none) {w : World} {tx : Nat}
    (htx : w.tx = some (tx, [])) :
    (commitTx o tx w).Meets (fun _ => True) (fun _ => False) := by
  rw [commitTx_eval]
  have hf : w.failure o (some (Runner.tx tx)) = none := by
    unfold World.failure World.refuses
    rw [ho, htx]
    simp
  rw [hf]
  trivial

/-- When the database accepts every call, the import of a record goes
through. -/
theorem importRecord_accepted {o : Faults} (ho : ∀ k, o k = none)
    (record : FullFilingRecord) (w : World) :
    (importRecord o record w).hasExited = false := by
  have hm : (importRecord o record w).Meets (fun _ => True) (fun _ => False) := by
    unfold importRecord
    rw [bind_apply, beginTx_eval, ho]
    simp only [andThen_next]
    have h1 : ((w.opened.note Call.Begin Reply.ok).pushed (w.txCount, none)).tx
        = some (w.txCount, []) := rfl
    rw [bind_apply]
    refine meets_andThen (checkExists_accepted ho _ record h1) (fun b w2 h2 => ?_)
    rw [bind_apply]
    refine meets_andThen (deleteExisting_accepted ho _ record b h2) (fun _ w3 h3 => ?_)
    rw [bind_apply]
    refine meets_andThen (insertOrganisation_accepted ho _ record h3) (fun orgID w4 h4 => ?_)
    rw [bind_apply]
    refine meets_andThen (insertLocation_accepted ho _ orgID record h4) (fun _ w5 h5 => ?_)
    rw [bind_apply]
    refine meets_andThen (insertMetadata_accepted ho _ orgID record h5) (fun _ w6 h6 => ?_)
    rw [bind_apply]
    refine meets_andThen (insertPeople_accepted ho _ orgID record.People h6)
      (fun _ w7 h7 => ?_)
    exact commitTx_accepted ho h7
  cases hr : importRecord o record w with
  | next u w2 => rfl
  | exited w2 => rw [hr] at hm; exact hm.elim

/-- When the database accepts every call, the run comes to its end. -/
theorem main_accepted {o : Faults} (ho : ∀ k, o k = none) (createErr : Option String)
    (records : List FullFilingRecord) (rows : String → List Row) (seq : String → Int) :
    (main o createErr records rows seq).hasExited = false := by
  have hloop : ∀ (l : List FullFilingRecord) (w : World),
      (importLoop o l w).hasExited = false := by
    intro l
    induction l with
    | nil => intro w; rfl
    | cons record rest ih =>
      intro w
      rw [importLoop_cons]
      have h1 := importRecord_accepted ho record w
      cases hr : importRecord o record w with
      | next u w2 => exact ih w2
      | exited w2 => rw [hr] at h1; simp at h1
  rw [main_eval]
  have h := hloop records (World.start rows seq)
  cases hl : importLoop o records (World.start rows seq) with
  | next u w1 => rfl
  | exited w1 => rw [hl] at h; simp at h

/-! ## Fatal stop (C3), error summary file (C8) -/

/-- When the run on the first records exits, the run on all the records is
that run: nothing is done for the records that follow. -/
theorem main_prefix_exited (o : Faults) (createErr : Option String)
    {records done rest : List FullFilingRecord} (rows : String → List Row)
    (seq : String → Int) (hsplit : records = done ++ rest)
    (hdone : (main o createErr done rows seq).hasExited = true) :
    main o createErr records rows seq = main o createErr done rows seq := by
  rw [main_eval] at hdone
  rw [main_eval, main_eval, hsplit, importLoop_append]
  cases hl : importLoop o done (World.start rows seq) with
  | next u w1 => rw [hl] at hdone; simp at hdone
  | exited w1 => rfl

/-- C3. Fatal stop on first failure: in every run, a call that failed (its
reply is an error other than no rows, or the fault schedule fails it) is the
last call the run issued, and the run has exited: nothing more is issued for
that record or for any later record; and when the run on the first records of
the input exits, the run on the whole input is that same run. -/
theorem fatal_stop_at_first_failure (o : Faults) (createErr : Option String)
    (records : List FullFilingRecord) (rows : String → List Row) (seq : String → Int)
    (k : Nat) (ev : Event)
    (hk : (main o createErr records rows seq).world.issued[k]? = some ev)
    (hf : ev.failed = true ∨ (o k).isSome = true) :
    (main o createErr records rows seq).world.issued.length = k + 1 ∧
      (main o createErr records rows seq).hasExited = true ∧ ev.failed = true ∧
      ∀ done rest, records = done ++ rest →
        (main o createErr done rows seq).hasExited = true →
        main o createErr records rows seq = main o createErr done rows seq := by
  have h : (main o createErr records rows seq).world.issued.length = k + 1 ∧
      (main o createErr records rows seq).hasExited = true ∧ ev.failed = true := by
    have hm := main_meets o createErr records rows seq
    cases hres : main o createErr records rows seq with
    | next u w =>
      rw [hres] at hm hk
      simp only [world_next] at hk
      have hs : Settled o w := hm
      have hno : ev.failed = false := hs.running.noFailure ev (List.getElem?_mem hk)
      exfalso
      rcases hf with hf | hf
      · rw [hno] at hf
        exact Bool.false_ne_true hf
      · obtain ⟨msg, hmsg⟩ := Option.isSome_iff_exists.mp hf
        have hrep := hs.running.obeys k msg ev hmsg hk
        unfold Event.failed at hno
        rw [hrep] at hno
        exact Bool.noConfusion hno
    | exited w =>
      rw [hres] at hm hk
      simp only [world_exited] at hk
      have hh : Halted o w := hm
      have hfail : ev.failed = true := by
        rcases hf with hf | hf
        · exact hf
        · obtain ⟨msg, hmsg⟩ := Option.isSome_iff_exists.mp hf
          have hrep := hh.obeys k msg ev hmsg hk
          unfold Event.failed
          rw [hrep]
      have hlt : k < w.issued.length := by
        rcases Nat.lt_or_ge k w.issued.length with h | h
        · exact h
        · rw [List.getElem?_eq_none h] at hk
          exact absurd hk (by simp)
      have hget : w.issued[k] = ev := by
        rw [List.getElem?_eq_getElem hlt] at hk
        exact Option.some.inj hk
      have hsplit : w.issued = w.issued.take k ++ ev :: w.issued.drop (k + 1) := by
        rw [← hget, ← List.drop_eq_getElem_cons hlt, List.take_append_drop]
      have hpost := hh.lastOnly _ ev _ hsplit hfail
      refine ⟨?_, rfl, hfail⟩
      simp only [world_exited]
      have hlen : (w.issued.drop (k + 1)).length = 0 := by rw [hpost]; rfl
      rw [List.length_drop] at hlen
      omega
  exact ⟨h.1, h.2.1, h.2.2,
    fun done rest hsplit hdone => main_prefix_exited o createErr rows seq hsplit hdone⟩

/-- C3, at a concrete run: the location insert of the first of two records
fails (call 3); the run issues 4 calls and exits. -/
theorem fatal_stop_witness :
    (main (failAt 3 "connection reset") none [acme, acme] emptyStorage freshSeq).world.issued.length
        = 4 ∧
      (main (failAt 3 "connection reset") none [acme, acme] emptyStorage freshSeq).hasExited
        = true :=
  have h := fatal_stop_at_first_failure (failAt 3 "connection reset") none [acme, acme]
    emptyStorage freshSeq 3
    ⟨Call.Exec (locationStmt (StatementBuilder.RunWith (Runner.tx 0)) 1 acme),
      Reply.error (GoError.other "connection reset")⟩
    (by decide!) (Or.inr (by decide))
  ⟨h.1, h.2.1⟩

/-- C8, what the code does: in no run is `errors.txt` created and nothing is
ever appended to `errorLog`, since every append follows a `log.Fatal`; in the
run where the location insert of the Acme record fails (call 3) the process
exits with that one failure and without the file. -/
theorem errors_file_never_written :
    (∀ (o : Faults) (createErr : Option String) (records : List FullFilingRecord)
        (rows : String → List Row) (seq : String → Int),
        (main o createErr records rows seq).world.errorsFile = none ∧
          (main o createErr records rows seq).world.errorLog = []) ∧
      (main (failAt 3 "connection reset") none [acme] emptyStorage freshSeq).hasExited = true ∧
      (main (failAt 3 "connection reset") none [acme] emptyStorage freshSeq).world.issued[3]? =
        some ⟨Call.Exec (locationStmt (StatementBuilder.RunWith (Runner.tx 0)) 1 acme),
          Reply.error (GoError.other "connection reset")⟩ ∧
      (main (failAt 3 "connection reset") none [acme] emptyStorage freshSeq).world.log =
        ["location insert:connection reset"] ∧
      (main (failAt 3 "connection reset") none [acme] emptyStorage freshSeq).world.errorsFile =
        none := by
  refine ⟨?_, by decide!, by decide!, by decide!, by decide!⟩
  intro o createErr records rows seq
  have hm := main_meets o createErr records rows seq
  cases hres : main o createErr records rows seq with
  | next u w =>
    rw [hres] at hm
    have hs : Settled o w := hm
    exact ⟨hs.running.errorsFile, hs.running.errorLog⟩
  | exited w =>
    rw [hres] at hm
    have hh : Halted o w := hm
    exact ⟨hh.errorsFile, hh.errorLog⟩

/-- C1, what the code does: every statement is run on the plain connection,
whatever runner the builder was given; so when the location insert of a record
fails (call 3) and the process exits, the organisation row of that record is
visible in storage, without its location, metadata and people rows. -/
theorem partial_rows_after_failed_insert :
    (∀ (psql : Builder) (record : FullFilingRecord) (ez : IRS990EZ) (person : People)
        (address : Address) (orgID personID : Int),
        (existsQuery psql record).runner = some Runner.db ∧
          (deleteStmt psql record).runner = some Runner.db ∧
          (orgQuery psql record).runner = some Runner.db ∧
          (locationStmt psql orgID record).runner = some Runner.db ∧
          (metadataStmt psql orgID ez).runner = some Runner.db ∧
          (personQuery psql orgID person).runner = some Runner.db ∧
          (personLocationStmt psql personID address).runner = some Runner.db) ∧
      (main (failAt 3 "connection reset") none [acme] emptyStorage freshSeq).hasExited = true ∧
      (main (failAt 3 "connection reset") none [acme] emptyStorage freshSeq).world.tx = none ∧
      (main (failAt 3 "connection reset") none [acme] emptyStorage freshSeq).world.rows
          "website.organisations" =
        [[("id", Value.int 1), ("name", Value.str "Acme Foundation"),
          ("ein", Value.str "12-3456789"), ("dln", Value.str "X1"),
          ("xml_batch_id", Value.str "batch-1"), ("website", Value.str "https://acme.example"),
          ("description", Value.str "education")]] ∧
      (main (failAt 3 "connection reset") none [acme] emptyStorage freshSeq).world.rows
          "website.organisation_locations" = [] ∧
      (main (failAt 3 "connection reset") none [acme] emptyStorage freshSeq).world.rows
          "website.organisation_metadata" = [] ∧
      (main (failAt 3 "connection reset") none [acme] emptyStorage freshSeq).world.rows
          "website.people" = [] := by
  refine ⟨fun psql record _ _ _ _ _ => ⟨rfl, rfl, orgQuery_runner psql record, rfl, rfl, rfl, rfl⟩,
    by decide!, by decide!, by decide!, by decide!, by decide!, by decide!⟩

/-- C7. Null handling of compensation: `nullInt` of an absent value is null,
of a present value `v` the integer `v`; it gives 0 only for a present 0, a
present 0 is not null, and the value bound to the `compensation` column of a
person insert is `nullInt` of the compensation of the person. -/
theorem nullInt_compensation (psql : Builder) (orgID : Int) (person : People) :
    nullInt none = Value.null ∧ (∀ v : Int, nullInt (some v) = Value.int v) ∧
      (∀ p : Option Int, nullInt p = Value.int 0 → p = some 0) ∧
      nullInt (some 0) ≠ Value.null ∧
      ((personQuery psql orgID person).columns.zip (personQuery psql orgID person).values).lookup
          "compensation" = some (nullInt person.Compensation) := by
  refine ⟨rfl, fun _ => rfl, ?_, ?_, ?_⟩
  · intro p hp
    cases p with
    | none => simp [nullInt] at hp
    | some v =>
      simp only [nullInt, Value.int.injEq] at hp
      rw [hp]
  · simp [nullInt]
  · simp [personQuery, Builder.Insert, Stmt.Columns, Stmt.Values, Stmt.Suffix, Stmt.RunWith,
      List.lookup]

/-- C9, what the code does: the metadata insert names the column
`gross_reciepts_amt`, so its columns are not those of the documented
schema. -/
theorem metadata_columns_differ (psql : Builder) (orgID : Int) (ez : IRS990EZ) :
    (metadataStmt psql orgID ez).columns =
        ["organisation_id", "gross_reciepts_amt", "total_revenue_amt", "total_expenses_amt",
          "excess_or_deficit_for_year_amt"] ∧
      (metadataStmt psql orgID ez).columns ≠ documentedMetadataColumns := by
  constructor
  · rfl
  · simp [metadataStmt, Builder.Insert, Stmt.Columns, Stmt.Values, Stmt.RunWith,
      documentedMetadataColumns]

/-! ## Uniqueness of the natural key (C2) -/

theorem importRecord_unique {o : Faults} {record : FullFilingRecord} {w w2 : World}
    (hU : UniqueKeys w.rows) (h : importRecord o record w = Res.next () w2) :
    UniqueKeys w2.rows := by
  unfold UniqueKeys at hU ⊢
  rw [importRecord_orgRows h, List.map_append, List.nodup_append]
  refine ⟨hU.sublist ((List.filter_sublist _).map _), by simp, ?_⟩
  intro k hk1 hk2
  simp only [List.map_cons, List.map_nil, List.mem_singleton] at hk2
  rw [List.mem_map] at hk1
  obtain ⟨r, hr, hkr⟩ := hk1
  rw [List.mem_filter] at hr
  have hm : matchesEq (keyOf record) r = true := by
    rw [matchesEq_keyOf, hkr, hk2, orgKey_rowOf_orgQuery]
  rw [hm] at hr
  exact absurd hr.2 (by simp)

theorem importLoop_unique {o : Faults} (records : List FullFilingRecord) {w w2 : World}
    (hU : UniqueKeys w.rows) (h : importLoop o records w = Res.next () w2) :
    UniqueKeys w2.rows := by
  induction records generalizing w with
  | nil =>
    simp only [importLoop, pure_apply, Res.next.injEq, true_and] at h
    rw [← h]; exact hU
  | cons record rest ih =>
    rw [importLoop_cons] at h
    obtain ⟨_, w1, h1, h2⟩ := andThen_eq_next h
    exact ih (importRecord_unique hU h1) h2

/-- After an accepted import the rows with the key of the record are the one
new row. -/
theorem importRecord_rowsWithKey {o : Faults} {record : FullFilingRecord} {w w2 : World}
    (h : importRecord o record w = Res.next () w2) :
    rowsWithKey w2.rows record =
      [rowOf (orgQuery (StatementBuilder.RunWith (Runner.tx w.txCount)) record)
        (some (w.seq "website.organisations"))] := by
  unfold rowsWithKey
  rw [importRecord_orgRows h, List.filter_append, List.filter_filter]
  have hnew : matchesEq (keyOf record)
      (rowOf (orgQuery (StatementBuilder.RunWith (Runner.tx w.txCount)) record)
        (some (w.seq "website.organisations"))) = true := by
    rw [matchesEq_keyOf, orgKey_rowOf_orgQuery]
  have hold : (w.rows "website.organisations").filter
      (fun a => matchesEq (keyOf record) a && !matchesEq (keyOf record) a) = [] := by
    rw [List.filter_eq_nil_iff]
    intro a _
    cases matchesEq (keyOf record) a <;> simp
  rw [hold, List.filter_cons_of_pos hnew]
  rfl

/-- An accepted import of a record with another key leaves the rows with the
key of `record` as they are. -/
theorem importRecord_otherKey {o : Faults} {record other : FullFilingRecord} {w w2 : World}
    (hne : keyOf other ≠ keyOf record) (h : importRecord o other w = Res.next () w2) :
    rowsWithKey w2.rows record = rowsWithKey w.rows record := by
  have hkeys : (some (Value.str other.EIN), some (Value.str other.DLN)) ≠
      (some (Value.str record.EIN), some (Value.str record.DLN)) := by
    intro heq
    apply hne
    simp only [Prod.mk.injEq, Option.some.injEq, Value.str.injEq] at heq
    unfold keyOf
    rw [heq.1, heq.2]
  unfold rowsWithKey
  rw [importRecord_orgRows h, List.filter_append, List.filter_filter]
  have hnew : matchesEq (keyOf record)
      (rowOf (orgQuery (StatementBuilder.RunWith (Runner.tx w.txCount)) other)
        (some (w.seq "website.organisations"))) = false := by
    rw [Bool.eq_false_iff]
    intro hm
    rw [matchesEq_keyOf, orgKey_rowOf_orgQuery] at hm
    exact hkeys hm
  rw [List.filter_cons_of_neg (by rw [hnew]; simp), List.filter_nil, List.append_nil]
  apply List.filter_congr
  intro a _
  cases hm : matchesEq (keyOf record) a with
  | false => simp
  | true =>
    have hno : matchesEq (keyOf other) a = false := by
      rw [Bool.eq_false_iff]
      intro hm2
      rw [matchesEq_keyOf] at hm hm2
      exact hkeys (hm2.symm.trans hm)
    simp [hno]

theorem importLoop_otherKeys {o : Faults} {record : FullFilingRecord}
    (records : List FullFilingRecord) {w w2 : World}
    (hne : ∀ r ∈ records, keyOf r ≠ keyOf record)
    (h : importLoop o records w = Res.next () w2) :
    rowsWithKey w2.rows record = rowsWithKey w.rows record := by
  induction records generalizing w with
  | nil =>
    simp only [importLoop, pure_apply, Res.next.injEq, true_and] at h
    rw [← h]
  | cons other rest ih =>
    rw [importLoop_cons] at h
    obtain ⟨_, w1, h1, h2⟩ := andThen_eq_next h
    rw [ih (fun r hr => hne r (List.mem_cons_of_mem _ hr)) h2,
      importRecord_otherKey (hne other (List.mem_cons_self _ _)) h1]

/-- The rows `main` leaves when it returns are those its loop left. -/
theorem main_returns {o : Faults} {createErr : Option String}
    {records : List FullFilingRecord} {rows : String → List Row} {seq : String → Int}
    (hs : (main o createErr records rows seq).hasExited = false) :
    ∃ w1, importLoop o records (World.start rows seq) = Res.next () w1 ∧
      (main o createErr records rows seq).world.rows = w1.rows ∧
      (main o createErr records rows seq).world.issued = w1.issued := by
  rw [main_eval] at hs ⊢
  cases hl : importLoop o records (World.start rows seq) with
  | exited w1 => rw [hl] at hs; simp at hs
  | next u w1 => exact ⟨w1, rfl, rfl, rfl⟩

/-- C2. Uniqueness of the natural key is preserved: when no two organisation
rows of the storage share an (EIN, DLN) pair, after a run that came to its end
no two do; and for each input record that no later record of the input shares
its key with, storage holds exactly one organisation row with that key, with
the name and batch id of that record (an old row with the key is replaced). -/
theorem natural_key_unique (o : Faults) (createErr : Option String)
    (records : List FullFilingRecord) (rows : String → List Row) (seq : String → Int)
    (hU : UniqueKeys rows)
    (hs : (main o createErr records rows seq).hasExited = false) :
    UniqueKeys (main o createErr records rows seq).world.rows ∧
      ∀ pre record post, records = pre ++ record :: post →
        (∀ r ∈ post, keyOf r ≠ keyOf record) →
        ∃ row, rowsWithKey (main o createErr records rows seq).world.rows record = [row] ∧
          row.lookup "ein" = some (Value.str record.EIN) ∧
          row.lookup "dln" = some (Value.str record.DLN) ∧
          row.lookup "name" = some (Value.str record.Name) ∧
          row.lookup "xml_batch_id" = some (Value.str record.XMLBatchID) := by
  obtain ⟨w1, hl, hrows, _⟩ := main_returns hs
  rw [hrows]
  refine ⟨importLoop_unique records hU hl, ?_⟩
  intro pre record post hrec hpost
  rw [hrec, importLoop_append] at hl
  obtain ⟨_, wa, _, hl2⟩ := andThen_eq_next hl
  rw [importLoop_cons] at hl2
  obtain ⟨_, wb, hb, hl3⟩ := andThen_eq_next hl2
  refine ⟨rowOf (orgQuery (StatementBuilder.RunWith (Runner.tx wa.txCount)) record)
    (some (wa.seq "website.organisations")), ?_, ?_⟩
  · rw [importLoop_otherKeys post hpost hl3, importRecord_rowsWithKey hb]
  · have hkey := orgKey_rowOf_orgQuery (StatementBuilder.RunWith (Runner.tx wa.txCount)) record
      (wa.seq "website.organisations")
    have hname := name_rowOf_orgQuery (StatementBuilder.RunWith (Runner.tx wa.txCount)) record
      (wa.seq "website.organisations")
    unfold orgKey at hkey
    simp only [Prod.mk.injEq] at hkey
    exact ⟨hkey.1, hkey.2, hname.1, hname.2⟩

/-- C2, at a concrete run: the storage holds an Acme row imported earlier and a
row of another organisation; after the import of the Acme record the keys are
still unique and the one row with the Acme key is the new one. -/
theorem natural_key_unique_witness :
    UniqueKeys storageWithAcme ∧
      UniqueKeys (main noFaults none [acme] storageWithAcme laterSeq).world.rows ∧
      rowsWithKey (main noFaults none [acme] storageWithAcme laterSeq).world.rows acme =
        [[("id", Value.int 20), ("name", Value.str "Acme Foundation"),
          ("ein", Value.str "12-3456789"), ("dln", Value.str "X1"),
          ("xml_batch_id", Value.str "batch-1"), ("website", Value.str "https://acme.example"),
          ("description", Value.str "education")]] :=
  have hU : UniqueKeys storageWithAcme := by unfold UniqueKeys; decide!
  ⟨hU,
    (natural_key_unique noFaults none [acme] storageWithAcme laterSeq hU (by decide!)).1,
    by decide!⟩

/-! ## The inserts of an accepted import (C4, C5, C6) and the delete (C10) -/

/-- C6. Foreign-key order and row counts: an import the database accepts issues
as its inserts, in this order, one organisation insert, one location insert,
the metadata insert when Form990EZ is present, and for each person in input
order its insert followed by the insert of its address when it has one: as
many person inserts as people and as many address inserts as people with an
address.  Every location, metadata and person insert carries the id the
organisation insert returned, and every address insert comes right after a
person insert and carries the id that insert returned. -/
theorem foreign_key_order (o : Faults) (record : FullFilingRecord) (w w2 : World)
    (h : importRecord o record w = Res.next () w2) :
    (callsSince w w2).filter Event.isInsert =
        insertCalls (StatementBuilder.RunWith (Runner.tx w.txCount)) record
          (w.seq "website.organisations") (w.seq "website.people") ∧
      (callsSince w w2).filter (Event.insertsInto "website.organisations") =
        [⟨Call.QueryRow (orgQuery (StatementBuilder.RunWith (Runner.tx w.txCount)) record),
          Reply.value (w.seq "website.organisations")⟩] ∧
      (callsSince w w2).filter (Event.insertsInto "website.organisation_locations") =
        [⟨Call.Exec (locationStmt (StatementBuilder.RunWith (Runner.tx w.txCount))
          (w.seq "website.organisations") record), Reply.ok⟩] ∧
      ((callsSince w w2).filter (Event.insertsInto "website.organisation_metadata")).length =
        (if record.Form990EZ.isSome then 1 else 0) ∧
      ((callsSince w w2).filter (Event.insertsInto "website.people")).length =
        record.People.length ∧
      ((callsSince w w2).filter (Event.insertsInto "website.people_locations")).length =
        addressCount record.People ∧
      (∀ ev ∈ callsSince w w2,
        (ev.insertsInto "website.organisation_locations" = true ∨
          ev.insertsInto "website.organisation_metadata" = true ∨
          ev.insertsInto "website.people" = true) →
        ev.firstValue = some (Value.int (w.seq "website.organisations"))) ∧
      List.Chain' Linked ((callsSince w w2).filter Event.isInsert) := by
  have hcalls := callsSince_eq (importRecord_next h).1
  rw [hcalls, recordCalls_isInsert, recordCalls_insertsInto, recordCalls_insertsInto,
    recordCalls_insertsInto, recordCalls_insertsInto, recordCalls_insertsInto,
    insertCalls_organisations, insertCalls_locations, insertCalls_metadata,
    insertCalls_people, insertCalls_addresses]
  refine ⟨rfl, rfl, rfl, ?_, rfl, rfl, ?_, insertCalls_chain _ _ _ _⟩
  · cases record.Form990EZ <;> rfl
  · intro ev hev hins
    have hmem : ev ∈ (recordCalls record w.txCount (existsIn w.rows record)
        (w.seq "website.organisations") (w.seq "website.people")).filter Event.isInsert := by
      rw [List.mem_filter]
      refine ⟨hev, ?_⟩
      unfold Event.insertsInto at hins
      unfold Event.isInsert
      cases hs : ev.call.stmt with
      | none => rw [hs] at hins; simp at hins
      | some s =>
        rw [hs] at hins
        simp only [Bool.and_eq_true, decide_eq_true_eq] at hins
        simp only [decide_eq_true_eq]
        rcases hins with hins | hins | hins <;> exact hins.1
    rw [recordCalls_isInsert] at hmem
    exact insertCalls_orgID _ _ _ _ ev hmem hins

/-- C6, the Acme Foundation example of the specification on empty tables: its
inserts are the four expected ones, all accepted, and storage then holds one
organisations row, one organisation_locations row, one organisation_metadata
row and one people row, with bookkeeper true. -/
theorem foreign_key_order_witness :
    (callsSince (World.start emptyStorage freshSeq)
        (importRecord noFaults acme (World.start emptyStorage freshSeq)).world).filter
        Event.isInsert =
      [⟨Call.QueryRow (orgQuery (StatementBuilder.RunWith (Runner.tx 0)) acme), Reply.value 1⟩,
        ⟨Call.Exec (locationStmt (StatementBuilder.RunWith (Runner.tx 0)) 1 acme), Reply.ok⟩,
        ⟨Call.Exec (metadataStmt (StatementBuilder.RunWith (Runner.tx 0)) 1
          ⟨1000, 900, 800, 100, "education", "https://acme.example"⟩), Reply.ok⟩,
        ⟨Call.QueryRow (personQuery (StatementBuilder.RunWith (Runner.tx 0)) 1
          ⟨"Jane Doe", "Treasurer", none, none, true, none, none⟩), Reply.value 1⟩] ∧
      (main noFaults none [acme] emptyStorage freshSeq).hasExited = false ∧
      ((main noFaults none [acme] emptyStorage freshSeq).world.rows
        "website.organisations").length = 1 ∧
      ((main noFaults none [acme] emptyStorage freshSeq).world.rows
        "website.organisation_locations").length = 1 ∧
      ((main noFaults none [acme] emptyStorage freshSeq).world.rows
        "website.organisation_metadata").length = 1 ∧
      ((main noFaults none [acme] emptyStorage freshSeq).world.rows "website.people").map
        (fun row => row.lookup "bookkeeper") = [some (Value.bool true)] ∧
      (main noFaults none [acme] emptyStorage freshSeq).world.rows
        "website.people_locations" = [] :=
  ⟨(foreign_key_order noFaults acme (World.start emptyStorage freshSeq)
      (importRecord noFaults acme (World.start emptyStorage freshSeq)).world
      (next_of_not_exited (by decide!))).1,
    by decide!, by decide!, by decide!, by decide!, by decide!, by decide!⟩

/-- C4. For a record whose Form990EZ is present, an import the database
accepts issues exactly one organisation insert and exactly one
organisation_metadata insert; the values of the latter are the id the
organisation insert returned and then GrossReceiptsAmt, TotalRevenueAmt,
TotalExpensesAmt and ExcessOrDeficitForYearAmt of the record, unchanged and in
that order. -/
theorem metadata_insert_values (o : Faults) (record : FullFilingRecord) (ez : IRS990EZ)
    (w w2 : World) (hez : record.Form990EZ = some ez)
    (h : importRecord o record w = Res.next () w2) :
    (callsSince w w2).filter (Event.insertsInto "website.organisations") =
        [⟨Call.QueryRow (orgQuery (StatementBuilder.RunWith (Runner.tx w.txCount)) record),
          Reply.value (w.seq "website.organisations")⟩] ∧
      (callsSince w w2).filter (Event.insertsInto "website.organisation_metadata") =
        [⟨Call.Exec (metadataStmt (StatementBuilder.RunWith (Runner.tx w.txCount))
          (w.seq "website.organisations") ez), Reply.ok⟩] ∧
      (metadataStmt (StatementBuilder.RunWith (Runner.tx w.txCount))
          (w.seq "website.organisations") ez).values =
        [Value.int (w.seq "website.organisations"), Value.int ez.GrossReceiptsAmt,
          Value.int ez.TotalRevenueAmt, Value.int ez.TotalExpensesAmt,
          Value.int ez.ExcessOrDeficitForYearAmt] := by
  have hcalls := callsSince_eq (importRecord_next h).1
  rw [hcalls, recordCalls_insertsInto, recordCalls_insertsInto, insertCalls_organisations,
    insertCalls_metadata, hez]
  exact ⟨rfl, rfl, rfl⟩

/-- C4, at the Acme record on empty tables. -/
theorem metadata_insert_values_witness :
    (callsSince (World.start emptyStorage freshSeq)
        (importRecord noFaults acme (World.start emptyStorage freshSeq)).world).filter
        (Event.insertsInto "website.organisation_metadata") =
      [⟨Call.Exec (metadataStmt (StatementBuilder.RunWith (Runner.tx 0)) 1
        ⟨1000, 900, 800, 100, "education", "https://acme.example"⟩), Reply.ok⟩] ∧
      (metadataStmt (StatementBuilder.RunWith (Runner.tx 0)) 1
          ⟨1000, 900, 800, 100, "education", "https://acme.example"⟩).values =
        [Value.int 1, Value.int 1000, Value.int 900, Value.int 800, Value.int 100] :=
  have h := metadata_insert_values noFaults acme
    ⟨1000, 900, 800, 100, "education", "https://acme.example"⟩
    (World.start emptyStorage freshSeq)
    (importRecord noFaults acme (World.start emptyStorage freshSeq)).world rfl
    (next_of_not_exited (by decide!))
  ⟨h.2.1, h.2.2⟩

theorem recordWrites_kind (record : FullFilingRecord) (tx : Nat) (existed : Bool)
    (orgID personID : Int) :
    ∀ wr ∈ recordWrites record tx existed orgID personID,
      wr.isInsert = true ∨ wr.table = "website.organisations" := by
  intro wr hwr
  unfold recordWrites at hwr
  simp only [List.mem_append] at hwr
  rcases hwr with ((hwr | hwr) | hwr) | hwr
  · cases existed with
    | false => simp at hwr
    | true =>
      simp only [if_true, List.mem_singleton] at hwr
      rw [hwr]; exact Or.inr rfl
  · simp only [List.mem_cons, List.mem_singleton, List.not_mem_nil, or_false] at hwr
    rcases hwr with hwr | hwr <;> rw [hwr] <;> exact Or.inl rfl
  · cases hez : record.Form990EZ with
    | none => rw [hez] at hwr; simp at hwr
    | some ez =>
      rw [hez] at hwr
      simp only [List.mem_singleton] at hwr
      rw [hwr]; exact Or.inl rfl
  · exact Or.inl (peopleWrites_table _ _ _ _ wr hwr).1

/-- C5. For a record whose Form990EZ is absent, an import the database accepts
issues one organisation insert with the columns name, ein, dln and
xml_batch_id only, so the created row has no website and no description, and
issues no organisation_metadata insert; for a record whose Form990EZ is
present the organisation insert carries Website and PrimaryExemptPurpose as
strings, exactly as given: never null, an empty string included. -/
theorem form990ez_absent_or_present (o : Faults) (record : FullFilingRecord) (w w2 : World)
    (h : importRecord o record w = Res.next () w2) :
    (record.Form990EZ = none →
      (callsSince w w2).filter (Event.insertsInto "website.organisations") =
          [⟨Call.QueryRow
              (orgQueryPlain (StatementBuilder.RunWith (Runner.tx w.txCount)) record),
            Reply.value (w.seq "website.organisations")⟩] ∧
        (orgQueryPlain (StatementBuilder.RunWith (Runner.tx w.txCount)) record).columns =
          ["name", "ein", "dln", "xml_batch_id"] ∧
        (orgQueryPlain (StatementBuilder.RunWith (Runner.tx w.txCount)) record).values =
          [Value.str record.Name, Value.str record.EIN, Value.str record.DLN,
            Value.str record.XMLBatchID] ∧
        (callsSince w w2).filter (Event.insertsInto "website.organisation_metadata") = [] ∧
        ∃ row, (w2.rows "website.organisations").getLast? = some row ∧
          row.lookup "id" = some (Value.int (w.seq "website.organisations")) ∧
          row.lookup "website" = none ∧ row.lookup "description" = none) ∧
      (∀ ez, record.Form990EZ = some ez →
        (callsSince w w2).filter (Event.insertsInto "website.organisations") =
            [⟨Call.QueryRow
                (orgQueryEZ (StatementBuilder.RunWith (Runner.tx w.txCount)) record ez),
              Reply.value (w.seq "website.organisations")⟩] ∧
          (orgQueryEZ (StatementBuilder.RunWith (Runner.tx w.txCount)) record ez).columns =
            ["name", "ein", "dln", "xml_batch_id", "website", "description"] ∧
          (orgQueryEZ (StatementBuilder.RunWith (Runner.tx w.txCount)) record ez).values =
            [Value.str record.Name, Value.str record.EIN, Value.str record.DLN,
              Value.str record.XMLBatchID, Value.str ez.Website,
              Value.str ez.PrimaryExemptPurpose] ∧
          Value.str ez.Website ≠ Value.null ∧ Value.str ez.PrimaryExemptPurpose ≠ Value.null ∧
          ∃ row, (w2.rows "website.organisations").getLast? = some row ∧
            row.lookup "id" = some (Value.int (w.seq "website.organisations")) ∧
            row.lookup "website" = some (Value.str ez.Website) ∧
            row.lookup "description" = some (Value.str ez.PrimaryExemptPurpose)) := by
  have hcalls := callsSince_eq (importRecord_next h).1
  have hrows := importRecord_orgRows h
  rw [hcalls, recordCalls_insertsInto, recordCalls_insertsInto, insertCalls_organisations,
    insertCalls_metadata, hrows, List.getLast?_concat]
  constructor
  · intro hez
    unfold orgQuery
    rw [hez]
    refine ⟨rfl, rfl, rfl, rfl, _, rfl, ?_⟩
    simp [rowOf, orgQueryPlain, Builder.Insert, Stmt.Columns, Stmt.Values, Stmt.Suffix,
      Stmt.RunWith, List.lookup]
  · intro ez hez
    unfold orgQuery
    rw [hez]
    refine ⟨rfl, rfl, rfl, by simp, by simp, _, rfl, ?_⟩
    simp [rowOf, orgQueryEZ, Builder.Insert, Stmt.Columns, Stmt.Values, Stmt.Suffix,
      Stmt.RunWith, List.lookup]

/-- C5, at a record without Form990EZ on empty tables: the created row has
the id and the four columns of the insert, and no metadata row is written. -/
theorem form990ez_absent_witness :
    (callsSince (World.start emptyStorage freshSeq)
        (importRecord noFaults plain (World.start emptyStorage freshSeq)).world).filter
        (Event.insertsInto "website.organisation_metadata") = [] ∧
      (importRecord noFaults plain (World.start emptyStorage freshSeq)).world.rows
          "website.organisations" =
        [[("id", Value.int 1), ("name", Value.str "Plain Trust"),
          ("ein", Value.str "98-7654321"), ("dln", Value.str "Y2"),
          ("xml_batch_id", Value.str "batch-2")]] ∧
      (importRecord noFaults plain (World.start emptyStorage freshSeq)).world.rows
          "website.organisation_metadata" = [] :=
  ⟨((form990ez_absent_or_present noFaults plain (World.start emptyStorage freshSeq)
      (importRecord noFaults plain (World.start emptyStorage freshSeq)).world
      (next_of_not_exited (by decide!))).1 rfl).2.2.2.1,
    by decide!, by decide!⟩

/-- C10. Delete on conflict touches only the organisations table: the import
of a record whose (EIN, DLN) is in storage, when the database accepts it,
issues exactly one delete, against organisations and filtered on the ein and
dln of the record; every other table keeps all the rows it had, in place, and
organisations keeps every row with another key.  The delete step itself, taken
alone and whatever the database replies, issues that one call and changes no
other table. -/
theorem delete_touches_only_organisations (o : Faults) (record : FullFilingRecord)
    (w w2 : World) (hex : existsIn w.rows record = true)
    (h : importRecord o record w = Res.next () w2) :
    (callsSince w w2).filter Event.isDelete =
        [⟨Call.Exec (deleteStmt (StatementBuilder.RunWith (Runner.tx w.txCount)) record),
          Reply.ok⟩] ∧
      (deleteStmt (StatementBuilder.RunWith (Runner.tx w.txCount)) record).table =
        "website.organisations" ∧
      (deleteStmt (StatementBuilder.RunWith (Runner.tx w.txCount)) record).cond =
        [("ein", Value.str record.EIN), ("dln", Value.str record.DLN)] ∧
      (∀ t, t ≠ "website.organisations" → w.rows t <+: w2.rows t) ∧
      (∀ r ∈ w.rows "website.organisations", matchesEq (keyOf record) r = false →
        r ∈ w2.rows "website.organisations") ∧
      (∀ (psql : Builder) (wd : World),
        (∃ reply, (deleteExisting o psql record true wd).world.issued =
          wd.issued ++ [⟨Call.Exec (deleteStmt psql record), reply⟩]) ∧
        (∀ t, t ≠ "website.organisations" →
          (deleteExisting o psql record true wd).world.rows t = wd.rows t) ∧
        (∀ r ∈ wd.rows "website.organisations", matchesEq (keyOf record) r = false →
          r ∈ (deleteExisting o psql record true wd).world.rows "website.organisations")) := by
  obtain ⟨hi, hr⟩ := importRecord_next h
  have hcalls := callsSince_eq hi
  rw [hcalls, recordCalls_isDelete, hex]
  refine ⟨rfl, rfl, rfl, ?_, ?_, ?_⟩
  · intro t ht
    rw [hr]
    apply foldl_applyWrite_prefix
    intro wr hwr
    rcases recordWrites_kind _ _ _ _ _ wr hwr with hk | hk
    · exact Or.inl hk
    · exact Or.inr (by rw [hk]; exact Ne.symm ht)
  · intro r hr1 hr2
    rw [importRecord_orgRows h, List.mem_append, List.mem_filter]
    exact Or.inl ⟨hr1, by rw [hr2]; rfl⟩
  · intro psql wd
    rw [deleteExisting_eval]
    cases o wd.issued.length with
    | some msg =>
      refine ⟨⟨_, rfl⟩, fun t _ => rfl, fun r hr1 _ => hr1⟩
    | none =>
      refine ⟨⟨_, rfl⟩, ?_, ?_⟩
      · intro t ht
        simp [applyWrite, ht]
      · intro r hr1 hr2
        simp only [world_next, assigned_rows_eq, note_rows_eq, withRows_rows_eq, applyWrite,
          if_true, List.mem_filter]
        exact ⟨hr1, by unfold keyOf at hr2; rw [hr2]; rfl⟩

/-- C10, at a concrete run: storage holds an Acme row with its location row
and a row of another organisation; the import of the Acme record issues one
delete, the old location row is still there, and so is the other
organisation. -/
theorem delete_touches_only_organisations_witness :
    (callsSince (World.start storageWithAcme laterSeq)
        (importRecord noFaults acme (World.start storageWithAcme laterSeq)).world).filter
        Event.isDelete =
      [⟨Call.Exec (deleteStmt (StatementBuilder.RunWith (Runner.tx 0)) acme), Reply.ok⟩] ∧
      (importRecord noFaults acme (World.start storageWithAcme laterSeq)).world.rows
          "website.organisation_locations" =
        [[("organisation_id", Value.int 7), ("address_line_1", Value.str "9 Old Road"),
            ("city", Value.str "Springfield"), ("state", Value.str "IL"),
            ("zip_code", Value.str "62701")],
          [("organisation_id", Value.int 20), ("address_line_1", Value.str "1 Main Street"),
            ("city", Value.str "Springfield"), ("state", Value.str "IL"),
            ("zip_code", Value.str "62701")]] ∧
      ((importRecord noFaults acme (World.start storageWithAcme laterSeq)).world.rows
          "website.organisations").map (fun row => row.lookup "id") =
        [some (Value.int 8), some (Value.int 20)] :=
  ⟨(delete_touches_only_organisations noFaults acme (World.start storageWithAcme laterSeq)
      (importRecord noFaults acme (World.start storageWithAcme laterSeq)).world
      (by decide!) (next_of_not_exited (by decide!))).1,
    by decide!, by decide!⟩

end RootedInjector
